import Mathlib

/-!
# Netatalk `ad cp` (bin/ad/ad_cp.c): a shallow embedding

The C program keeps its state in file-scope globals and talks to the
operating system through system calls.  The embedding

* represents C strings as NUL-free character lists (`CStr`),
* threads the globals explicitly (`Globals`),
* receives the answer of every system or library call made while one
  entry is processed from an oracle record (`Env`), and
* records the calls that touch the file system or the metadata store in
  an event trace (`Ev`), in program order.

Diagnostics (`SLOG`, `printf`) are not recorded.  `ERROR(...)` logs and
terminates the process; it is modelled by `Outcome.exit`.  Option parsing
(`getopt`) is outside the model: `ad_cp` starts from the flags it has set.
The maximum path length `PATH_MAX` of `<limits.h>` is a parameter.
-/

namespace AdCp

/-- C strings: the characters before the terminating NUL. -/
abbrev CStr := List Char

/-! ## Constants of the system headers -/

def S_IFMT : Nat := 0o170000
def S_IFSOCK : Nat := 0o140000
def S_IFLNK : Nat := 0o120000
def S_IFREG : Nat := 0o100000
def S_IFBLK : Nat := 0o060000
def S_IFDIR : Nat := 0o040000
def S_IFCHR : Nat := 0o020000
def S_IFIFO : Nat := 0o010000
def S_ISUID : Nat := 0o4000
def S_ISGID : Nat := 0o2000
def S_ISVTX : Nat := 0o1000
def S_IRWXU : Nat := 0o700
def S_IRWXG : Nat := 0o070
def S_IRWXO : Nat := 0o007
def EPERM : Nat := 1

/-- The value of `~(S_ISUID | S_ISGID)` converted to the 32-bit `mode_t`. -/
def NOT_SUID_SGID : Nat := 0xFFFFFFFF - (S_ISUID ||| S_ISGID)

def S_ISDIR (m : Nat) : Bool := m &&& S_IFMT == S_IFDIR
def S_ISREG (m : Nat) : Bool := m &&& S_IFMT == S_IFREG
def S_ISLNK (m : Nat) : Bool := m &&& S_IFMT == S_IFLNK

/-- Modelled from the spec: the action codes of `atalk/ftw.h`, a header that
is not part of the sources; the values are those of the glibc `<ftw.h>` the
walker was taken from. -/
def FTW_CONTINUE : Int := 0
/-- Modelled from the spec: see `FTW_CONTINUE`. -/
def FTW_STOP : Int := 1
/-- Modelled from the spec: see `FTW_CONTINUE`. -/
def FTW_SKIP_SUBTREE : Int := 2
/-- Modelled from the spec: see `FTW_CONTINUE`. -/
def FTW_SKIP_SIBLINGS : Int := 3

/-- Modelled from the spec: the metadata version tag of `atalk/adouble.h`,
a header that is not part of the sources ("the version this engine
understands"). -/
def AD_VERSION2 : Nat := 0x00020000

/-- Modelled from the spec: the directory flag of `atalk/adouble.h`. -/
def ADFLAGS_DIR : Nat := 8

/-! ## Data -/

/-- The fields of `struct stat` the program reads. -/
structure stat where
  st_dev : Nat
  st_ino : Nat
  st_mode : Nat
  st_uid : Nat
  st_gid : Nat
  st_size : Int
  st_atim : Nat
  st_mtim : Nat
deriving DecidableEq, Repr

/-- The fields of `struct FTW` handed to the callback. -/
structure FTW where
  base : Nat
  level : Nat
deriving DecidableEq, Repr

/-- Modelled from the spec: the type `PATH_T` is declared in `ad.h`, which is
not part of the sources ("the mutable destination path plus two fixed
offsets").  The buffer `p_path` is held as the C string it contains, `p_end`
and `target_end` as offsets from `p_path`. -/
structure PATH_T where
  p_path : CStr
  p_end : Nat
  target_end : Nat
deriving DecidableEq, Repr

/-- The copy mode (`enum op`). -/
inductive op where
  | FILE_TO_FILE
  | FILE_TO_DIR
  | DIR_TO_DNE
deriving DecidableEq, Repr

/-- Modelled from the spec: the part of `struct volinfo` (`atalk/volinfo.h`,
not part of the sources) the program reads: the volume path, `NULL` when
there is none, and the metadata version. -/
structure volinfo where
  v_path : Option CStr
  v_adouble : Nat
  v_ad_options : Nat
deriving DecidableEq, Repr

/-- Modelled from the spec: the part of `afpvol_t` (declared in `ad.h`, not
part of the sources) the program reads. -/
structure afpvol_t where
  volinfo : volinfo
  db_stamp : Nat
deriving DecidableEq, Repr

/-- The file-scope variables of `ad_cp.c`, and the static buffer size of
`ftw_copy_file` (`none` while `buf == NULL`). -/
structure Globals where
  /-- The global `to`. -/
  to_ : PATH_T
  type : op
  fflag : Bool
  iflag : Bool
  lflag : Bool
  nflag : Bool
  pflag : Bool
  vflag : Bool
  Rflag : Bool
  pdid : Nat
  did : Nat
  svolume : afpvol_t
  dvolume : afpvol_t
  badcp : Nat
  rval : Nat
  bufsize : Option Nat
deriving DecidableEq, Repr

/-- System and library calls that touch the file system or the metadata
store, with their arguments (and the result where it decides the effect). -/
inductive Ev where
  | stat (p : CStr)
  | lstat (p : CStr)
  | fstat
  | open_rdonly (p : CStr)
  | open_trunc (p : CStr) (creat : Bool) (mode : Nat)
  | close_to
  | close_from
  | unlink (p : CStr)
  | link (src dst : CStr)
  | readlink (p : CStr)
  | symlink (target p : CStr)
  | mkdir (p : CStr) (mode : Nat)
  | mmap (len : Nat)
  | munmap (len : Nat)
  | read (ret : Int)
  | write (off len : Nat) (ret : Int)
  | utimes (p : CStr)
  | lutimes (p : CStr)
  | chown (p : CStr) (uid gid : Nat) (ok : Bool)
  | lchown (p : CStr) (uid gid : Nat) (ok : Bool)
  | fchown (uid gid : Nat) (ok : Bool)
  | chmod (p : CStr) (mode : Nat) (ok : Bool)
  | fchmod (mode : Nat) (ok : Bool)
  | umask (m : Nat)
  | getchar
  | copy_file (src dst : CStr) (mode : Nat)
  | vfs_copyfile (src dst : CStr)
  | vfs_deletefile (p : CStr)
  | cnid_for_path (p : CStr)
  | ad_open_metadata (p : CStr) (adflags : Nat)
  | ad_setid (dev ino id pid stamp : Nat)
  | ad_flush
  | ad_close_metadata
deriving DecidableEq, Repr

/-- Answers of the environment to the calls made while one entry is
processed.  A failing call is `false` / `none`; `chown` answers with the
`errno` of the failure. -/
structure Env where
  /-- The `stat(to.p_path, &to_stat)` of `copy`. -/
  stat_to : CStr → Option stat
  /-- The `stat(to.p_path, &st)` of the metadata step for directories. -/
  stat_md : CStr → Option stat
  mkdir_ok : Bool
  umask_old : Nat
  copy_file_ok : Bool
  cnid_for_path : CStr → Nat
  ad_open_metadata_ok : Bool
  vfs_copyfile_ok : Bool
  /-- Descriptor returned by `open(spath, O_RDONLY, 0)`, -1 on failure. -/
  open_src : Int
  /-- Descriptor returned by the `open` of the destination, -1 on failure. -/
  open_dst : Int
  /-- The characters `getchar` delivers up to the end of the line. -/
  answer : CStr
  mmap_ok : Bool
  munmap_ok : Bool
  phys_pages : Int
  malloc_ok : Bool
  /-- Results of the successive `read` calls; end of file afterwards. -/
  reads : List Int
  /-- Result of the k-th `write` call. -/
  write : Nat → Int
  link_ok : Bool
  close_ok : Bool
  readlink : CStr → Option CStr
  unlink_ok : Bool
  symlink_ok : Bool
  utimes_ok : Bool
  /-- The `fstat` / `lstat` / `stat` of `setfile`. -/
  stat_set : Option stat
  /-- Outcome of `fchown` / `lchown` / `chown`: `none` on success. -/
  chown_errno : Option Nat
  chmod_ok : Bool

/-- How a function ends: it returns a value, or the process exits.
Modelled from the spec: the macro `ERROR` of `ad.h` (not part of the
sources) logs and ends the process with status 1 ("aborts the whole run
immediately, non-zero exit"), as does `usage_cp`. -/
inductive Outcome where
  | ret (v : Int)
  | exit (status : Nat)
deriving DecidableEq, Repr

/-- Result of a run of `copy`. -/
structure Result where
  out : Outcome
  g : Globals
  trace : List Ev

/-! ## String helpers -/

/-- The call `strrchr(s, c)`: the suffix of `s` starting at the last occurrence of
`c`, `none` for `NULL`. -/
def strrchr (c : Char) : CStr → Option CStr
  | [] => none
  | x :: xs =>
    match strrchr c xs with
    | some r => some r
    | none => if x = c then some (x :: xs) else none

def netatalk_dirs : List CStr :=
  [".AppleDouble".toList, ".AppleDB".toList, ".AppleDesktop".toList]

/-- Lines 118-127: the matching table entry, or `none` for `NULL`. -/
def check_netatalk_dirs (name : CStr) : Option CStr :=
  netatalk_dirs.find? (fun d => name = d)

/-- Lines 311-315 of `copy`: the text after the last slash. -/
def copy_dir (path : CStr) : CStr :=
  match strrchr '/' path with
  | none => path
  | some r => r.drop 1

/-- Lines 76-79, `STRIP_TRAILING_SLASH`, as a loop over the offset of
`p_end`; `*--p_end = 0` cuts the string at the new `p_end`. -/
def strip_loop (buf : CStr) : Nat → CStr × Nat
  | 0 => (buf, 0)
  | e + 1 =>
    if 1 < e + 1 ∧ buf.get? e = some '/' then strip_loop (buf.take e) e
    else (buf, e + 1)

def STRIP_TRAILING_SLASH (p : PATH_T) : PATH_T :=
  let r := strip_loop p.p_path p.p_end
  { p with p_path := r.1, p_end := r.2 }

/-! ## Attribute propagation -/

/-- The permission bits kept by `setfile` (lines 744 and 757). -/
def PERM_BITS : Nat :=
  S_ISUID ||| S_ISGID ||| S_ISVTX ||| S_IRWXU ||| S_IRWXG ||| S_IRWXO

/-- Result of `setfile`: its return value and the calls it made. -/
structure SetfileResult where
  rval : Nat
  trace : List Ev

/-- Lines 752-759 of `setfile`: the buffer `ts` when the `fstat` / `lstat` /
`stat` succeeded (`gotstat`), its `st_mode` masked. -/
def setfile_ts (env : Env) : Option stat :=
  env.stat_set.map (fun t => { t with st_mode := t.st_mode &&& PERM_BITS })

/-- Line 766 of `setfile`: whether the change of ownership is attempted. -/
def setfile_want_chown (env : Env) (fs : stat) : Bool :=
  match setfile_ts env with
  | none => true
  | some t => fs.st_uid != t.st_uid || fs.st_gid != t.st_gid

/-- Lines 744 and 774 of `setfile`: the value of `mode` when line 777 is
reached. -/
def setfile_mode (env : Env) (fs : stat) : Nat :=
  if setfile_want_chown env fs && env.chown_errno.isSome then
    (fs.st_mode &&& PERM_BITS) &&& NOT_SUID_SGID
  else fs.st_mode &&& PERM_BITS

/-- Line 777 of `setfile`: whether the change of mode is attempted. -/
def setfile_want_chmod (env : Env) (fs : stat) : Bool :=
  match setfile_ts env with
  | none => true
  | some t => setfile_mode env fs != t.st_mode

/-- Lines 734-795, `setfile(fs, fd)` with `to.p_path = dst`.  The block
under `HAVE_ST_FLAGS` (file flags, a BSD facility) is not compiled in. -/
def setfile (env : Env) (dst : CStr) (fs : stat) (fd : Int) : SetfileResult :=
  let fdval : Bool := fd != -1
  let islink : Bool := !fdval && S_ISLNK fs.st_mode
  -- utimes / lutimes
  let ev_utimes : Ev := if islink then Ev.lutimes dst else Ev.utimes dst
  let rval1 : Nat := if env.utimes_ok then 0 else 1
  -- fstat / lstat / stat
  let ev_stat : Ev :=
    if fdval then Ev.fstat else if islink then Ev.lstat dst else Ev.stat dst
  -- ownership
  let ev_chown : List Ev :=
    if setfile_want_chown env fs then
      [if fdval then Ev.fchown fs.st_uid fs.st_gid env.chown_errno.isNone
       else if islink then Ev.lchown dst fs.st_uid fs.st_gid env.chown_errno.isNone
       else Ev.chown dst fs.st_uid fs.st_gid env.chown_errno.isNone]
    else []
  let rval2 : Nat :=
    if setfile_want_chown env fs then
      match env.chown_errno with
      | none => rval1
      | some e => if e != EPERM then 1 else rval1
    else rval1
  -- mode
  let ev_chmod : List Ev :=
    if setfile_want_chmod env fs then
      [if fdval then Ev.fchmod (setfile_mode env fs) env.chmod_ok
       else Ev.chmod dst (setfile_mode env fs) env.chmod_ok]
    else []
  let rval3 : Nat := if setfile_want_chmod env fs && !env.chmod_ok then 1 else rval2
  { rval := rval3, trace := [ev_utimes, ev_stat] ++ ev_chown ++ ev_chmod }

/-! ## Content transfer -/

/-- Lines 623-631 and 660-668: one run of the inner `for (;;)` write loop.
Arguments: remaining iterations, index of the next `write` call, offset of
`bufp` in the source, `wresid`.  Result: the last `wcount`, the last
`wresid`, the index of the next `write` call, the calls made.  The loop
body is entered at most `wresid` times, the callers pass `wresid + 1`. -/
def write_loop (write : Nat → Int) :
    Nat → Nat → Nat → Nat → Int × Nat × Nat × List Ev
  | 0, k, _, wresid => (0, wresid, k, [])
  | fuel + 1, k, off, wresid =>
    let wcount := write k
    if wcount ≤ 0 then (wcount, wresid, k + 1, [Ev.write off wresid wcount])
    else if wcount ≥ (wresid : Int) then
      (wcount, wresid, k + 1, [Ev.write off wresid wcount])
    else
      let r := write_loop write fuel (k + 1) (off + wcount.toNat)
        (wresid - wcount.toNat)
      (r.1, r.2.1, r.2.2.1, Ev.write off wresid wcount :: r.2.2.2)

/-- Lines 659-678: the buffered loop over the results of the `read` calls.
Result: whether `rval` was set, and the calls made. -/
def read_loop (write : Nat → Int) : List Int → Nat → Nat → Bool × List Ev
  | [], _, _ => (false, [Ev.read 0])
  | rcount :: rest, k, off =>
    if rcount > 0 then
      let w := write_loop write (rcount.toNat + 1) k off rcount.toNat
      if w.1 ≠ (w.2.1 : Int) then (true, Ev.read rcount :: w.2.2.2)
      else
        let r := read_loop write rest w.2.2.1 (off + rcount.toNat)
        (r.1, Ev.read rcount :: (w.2.2.2 ++ r.2))
    else (decide (rcount < 0), [Ev.read rcount])

def PHYSPAGES_THRESHOLD : Int := 32 * 1024
def BUFSIZE_MAX : Nat := 2 * 1024 * 1024
def MAXPHYS : Nat := 64 * 1024
def BUFSIZE_SMALL : Nat := MAXPHYS

/-- Result of `ftw_copy_file`. -/
structure FileResult where
  out : Outcome
  bufsize : Option Nat
  trace : List Ev

/-- Lines 607-707 of `ftw_copy_file`: both descriptors are open (or `lflag`
is set). -/
def ftw_copy_file_transfer (env : Env) (g : Globals) (spath : CStr)
    (sp : stat) (to_fd : Int) : FileResult :=
  let dst := g.to_.p_path
  -- the tail shared by all paths: lines 694-707
  let finish (rval : Nat) (bufsize : Option Nat) (tr : List Ev) : FileResult :=
    if !g.lflag then
      let s : SetfileResult :=
        if g.pflag then setfile env dst sp to_fd else { rval := 0, trace := [] }
      let rval1 := if g.pflag && s.rval != 0 then 1 else rval
      let rval2 := if !env.close_ok then 1 else rval1
      { out := .ret rval2, bufsize := bufsize,
        trace := tr ++ s.trace ++ [Ev.close_to, Ev.close_from] }
    else
      { out := .ret rval, bufsize := bufsize, trace := tr ++ [Ev.close_from] }
  if !g.lflag then
    if S_ISREG sp.st_mode && decide (sp.st_size > 0) &&
        decide (sp.st_size ≤ 8 * 1024 * 1024) && env.mmap_ok then
      let n := sp.st_size.toNat
      let w := write_loop env.write (n + 1) 0 0 n
      let rval1 : Nat := if w.1 ≠ (w.2.1 : Int) then 1 else 0
      let rval2 : Nat := if !env.munmap_ok then 1 else rval1
      finish rval2 g.bufsize ([Ev.mmap n] ++ w.2.2.2 ++ [Ev.munmap n])
    else
      let tr_mmap : List Ev :=
        if S_ISREG sp.st_mode && decide (sp.st_size > 0) &&
            decide (sp.st_size ≤ 8 * 1024 * 1024) then [Ev.mmap sp.st_size.toNat]
        else []
      match g.bufsize with
      | none =>
        let bufsize :=
          if env.phys_pages > PHYSPAGES_THRESHOLD then min BUFSIZE_MAX (MAXPHYS * 8)
          else BUFSIZE_SMALL
        if !env.malloc_ok then
          { out := .exit 1, bufsize := none, trace := tr_mmap }
        else
          let r := read_loop env.write env.reads 0 0
          finish (if r.1 then 1 else 0) (some bufsize) (tr_mmap ++ r.2)
      | some bufsize =>
        let r := read_loop env.write env.reads 0 0
        finish (if r.1 then 1 else 0) (some bufsize) (tr_mmap ++ r.2)
  else
    finish (if !env.link_ok then 1 else 0) g.bufsize [Ev.link spath dst]

/-- Lines 535-708, `ftw_copy_file(entp, spath, sp, dne)`. -/
def ftw_copy_file (env : Env) (g : Globals) (spath : CStr) (sp : stat)
    (dne : Bool) : FileResult :=
  let dst := g.to_.p_path
  let keep (v : Int) (tr : List Ev) : FileResult :=
    { out := .ret v, bufsize := g.bufsize, trace := tr }
  -- open with O_WRONLY | O_TRUNC (| O_CREAT), unless lflag; then lines 601-707
  let open_and_transfer (tr : List Ev) (creat : Bool) (mode : Nat) : FileResult :=
    if !g.lflag then
      if env.open_dst == -1 then
        keep 1 (tr ++ [Ev.open_trunc dst creat mode, Ev.close_from])
      else
        let r := ftw_copy_file_transfer env g spath sp env.open_dst
        { r with trace := tr ++ [Ev.open_trunc dst creat mode] ++ r.trace }
    else
      let r := ftw_copy_file_transfer env g spath sp 0
      { r with trace := tr ++ r.trace }
  if env.open_src == -1 then keep 1 [Ev.open_rdonly spath]
  else if !dne then
    if g.nflag then keep 0 [Ev.open_rdonly spath, Ev.close_from]
    else if g.iflag && !(env.answer.head? == some 'y' || env.answer.head? == some 'Y') then
      keep 1 [Ev.open_rdonly spath, Ev.getchar, Ev.close_from]
    else
      let tr0 : List Ev :=
        [Ev.open_rdonly spath] ++ (if g.iflag then [Ev.getchar] else [])
      if g.fflag then
        open_and_transfer (tr0 ++ [Ev.unlink dst, Ev.vfs_deletefile dst]) true
          (sp.st_mode &&& NOT_SUID_SGID)
      else open_and_transfer tr0 false 0
  else
    open_and_transfer [Ev.open_rdonly spath] true (sp.st_mode &&& NOT_SUID_SGID)

/-- Lines 710-732, `ftw_copy_link(p, spath, sstp, exists)`. -/
def ftw_copy_link (PATH_MAX : Nat) (env : Env) (g : Globals) (spath : CStr)
    (sstp : stat) ( exists_ : Bool) : SetfileResult :=
  let dst := g.to_.p_path
  match env.readlink spath with
  | none => { rval := 1, trace := [Ev.readlink spath] }
  | some l =>
    let llink := l.take (PATH_MAX - 1)
    if exists_ && !env.unlink_ok then
      { rval := 1, trace := [Ev.readlink spath, Ev.unlink dst] }
    else
      let tr : List Ev :=
        [Ev.readlink spath] ++ (if exists_ then [Ev.unlink dst] else [])
      if !env.symlink_ok then { rval := 1, trace := tr ++ [Ev.symlink llink dst] }
      else if g.pflag then
        let s := setfile env dst sstp (-1)
        { rval := s.rval, trace := tr ++ [Ev.symlink llink dst] ++ s.trace }
      else { rval := 0, trace := tr ++ [Ev.symlink llink dst] }

/-! ## The callback `copy` -/

/-- Lines 345-353: the offset `base` (a local initialised to 0 on every
call). -/
def copy_base (type : op) (path : CStr) (ftw : FTW) : Nat :=
  if ftw.level = 0 then
    if type ≠ op.DIR_TO_DNE then
      if path.drop ftw.base = "..".toList then ftw.base + 1 else ftw.base
    else path.length
  else 0

/-- Outcome of the path-building block: whether the entry was refused as
too long, and the cursor. -/
structure Appended where
  too_long : Bool
  to_ : PATH_T
deriving DecidableEq, Repr

/-- Lines 355-369 of `copy`, for `type != FILE_TO_FILE`. -/
def copy_append (PATH_MAX : Nat) (to_ : PATH_T) (type : op) (path : CStr)
    (ftw : FTW) : Appended :=
  let base := copy_base type path ftw
  let p := path.drop base
  let nlen := path.length - base
  let sep : Bool :=
    p.head? != some '/' && to_.p_path.get? (to_.target_end - 1) != some '/'
  let target_mid := if sep then to_.target_end + 1 else to_.target_end
  let buf := to_.p_path.take to_.target_end ++ (if sep then ['/'] else [])
  if target_mid + nlen ≥ PATH_MAX then
    { too_long := true, to_ := { to_ with p_path := buf } }
  else
    { too_long := false,
      to_ := STRIP_TRAILING_SLASH
        { to_ with p_path := buf ++ p.take nlen, p_end := target_mid + nlen } }

/-- The gate of lines 424-425 and 492-493. -/
def ad_enabled (g : Globals) : Bool :=
  g.svolume.volinfo.v_path.isSome && g.svolume.volinfo.v_adouble == AD_VERSION2 &&
  g.dvolume.volinfo.v_path.isSome && g.dvolume.volinfo.v_adouble == AD_VERSION2

def failed (g : Globals) : Globals := { g with badcp := 1, rval := 1 }

/-- Lines 423-473 of `copy`: the metadata step and the attributes of a
directory, after the calls `tr0` of lines 415-421. -/
def copy_directory_meta (env : Env) (g : Globals) (path : CStr) (statp : stat)
    (tr0 : List Ev) : Result :=
  let dst := g.to_.p_path
  -- lines 466-473
  let attrs (g1 : Globals) (tr : List Ev) : Result :=
    if g1.pflag then
      let s := setfile env dst statp (-1)
      { out := .ret 0, g := if s.rval != 0 then { g1 with rval := 1 } else g1,
        trace := tr ++ s.trace }
    else { out := .ret 0, g := g1, trace := tr }
  if ad_enabled g then
    let addir := dst ++ "/.AppleDouble".toList
    let tr1 := tr0 ++ [Ev.umask 0, Ev.mkdir addir 0o2777,
      Ev.copy_file (path ++ "/.AppleDouble/.Parent".toList)
        (addir ++ "/.Parent".toList) 0o666]
    if !env.copy_file_ok then { out := .ret 0, g := failed g, trace := tr1 }
    else
      let g1 := { g with pdid := g.did, did := env.cnid_for_path dst }
      let tr2 := tr1 ++ [Ev.cnid_for_path dst, Ev.stat dst]
      match env.stat_md dst with
      | none => { out := .ret 0, g := failed g1, trace := tr2 }
      | some st =>
        if !env.ad_open_metadata_ok then
          { out := .exit 1, g := g1,
            trace := tr2 ++ [Ev.ad_open_metadata dst ADFLAGS_DIR] }
        else
          attrs g1 (tr2 ++ [Ev.ad_open_metadata dst ADFLAGS_DIR,
            Ev.ad_setid st.st_dev st.st_ino g1.did g1.pdid g1.dvolume.db_stamp,
            Ev.ad_flush, Ev.ad_close_metadata, Ev.umask env.umask_old])
  else attrs g tr0

/-- Lines 401-474 of `copy`: the case `S_IFDIR`. -/
def copy_directory (env : Env) (g : Globals) (path : CStr) (statp : stat)
    (to_stat : Option stat) : Result :=
  let dst := g.to_.p_path
  if !g.Rflag then { out := .ret (-1), g := failed g, trace := [] }
  else
    match to_stat with
    | none =>
      if !env.mkdir_ok then
        { out := .exit 1, g := g, trace := [Ev.mkdir dst (statp.st_mode ||| S_IRWXU)] }
      else
        copy_directory_meta env g path statp [Ev.mkdir dst (statp.st_mode ||| S_IRWXU)]
    | some ts =>
      if !S_ISDIR ts.st_mode then { out := .exit 1, g := g, trace := [] }
      else copy_directory_meta env g path statp []

/-- Lines 486-512 of `copy`: the `default` case (regular files). -/
def copy_regular (env : Env) (g : Globals) (path : CStr) (statp : stat)
    (dne : Bool) : Result :=
  let dst := g.to_.p_path
  let f := ftw_copy_file env g path statp dne
  match f.out with
  | .exit n => { out := .exit n, g := { g with bufsize := f.bufsize }, trace := f.trace }
  | .ret v =>
    let g0 := { g with bufsize := f.bufsize }
    let g1 := if v != 0 then failed g0 else g0
    if ad_enabled g then
      let g2 := if !env.vfs_copyfile_ok then failed g1 else g1
      let tr := f.trace ++ [Ev.vfs_copyfile path dst, Ev.cnid_for_path dst,
        Ev.ad_open_metadata dst 0]
      if !env.ad_open_metadata_ok then { out := .exit 1, g := g2, trace := tr }
      else
        { out := .ret 0, g := g2,
          trace := tr ++ [Ev.ad_setid statp.st_dev statp.st_ino
            (env.cnid_for_path dst) g.did g.dvolume.db_stamp,
            Ev.ad_flush, Ev.ad_close_metadata] }
    else { out := .ret 0, g := g1, trace := f.trace }

/-- Lines 396-517 of `copy`: the `switch` on the source type. -/
def copy_dispatch (PATH_MAX : Nat) (env : Env) (g : Globals) (path : CStr)
    (statp : stat) (to_stat : Option stat) : Result :=
  let fmt := statp.st_mode &&& S_IFMT
  if fmt = S_IFLNK then
    let l := ftw_copy_link PATH_MAX env g path statp to_stat.isSome
    { out := .ret 0, g := if l.rval != 0 then failed g else g, trace := l.trace }
  else if fmt = S_IFDIR then copy_directory env g path statp to_stat
  else if fmt = S_IFBLK ∨ fmt = S_IFCHR ∨ fmt = S_IFSOCK ∨ fmt = S_IFIFO then
    { out := .ret 0, g := g, trace := [] }
  else copy_regular env g path statp to_stat.isNone

/-- Lines 372-394 of `copy`, followed by the dispatch: the identity and
conflict checks on the destination `to.p_path`. -/
def copy_checked (PATH_MAX : Nat) (env : Env) (g : Globals) (path : CStr)
    (statp : stat) : Result :=
  let dst := g.to_.p_path
  let pre (r : Result) : Result := { r with trace := Ev.stat dst :: r.trace }
  match env.stat_to dst with
  | none => pre (copy_dispatch PATH_MAX env g path statp none)
  | some to_stat =>
    let same : Bool :=
      to_stat.st_dev == statp.st_dev && to_stat.st_ino == statp.st_ino
    let g1 := if same then failed g else g
    if same && S_ISDIR statp.st_mode then
      { out := .ret (-1), g := g1, trace := [Ev.stat dst] }
    else if !S_ISDIR statp.st_mode && S_ISDIR to_stat.st_mode then
      { out := .ret 0, g := failed g1, trace := [Ev.stat dst] }
    else pre (copy_dispatch PATH_MAX env g1 path statp (some to_stat))

/-- Lines 300-518, the callback `copy(path, statp, tflag, ftw)`. -/
def copy (PATH_MAX : Nat) (env : Env) (g : Globals) (path : CStr)
    (statp : stat) (ftw : FTW) : Result :=
  if (check_netatalk_dirs (copy_dir path)).isSome then
    { out := .ret FTW_SKIP_SUBTREE, g := g, trace := [] }
  else if g.type ≠ op.FILE_TO_FILE then
    let a := copy_append PATH_MAX g.to_ g.type path ftw
    if a.too_long then
      { out := .ret 0, g := failed { g with to_ := a.to_ }, trace := [] }
    else copy_checked PATH_MAX env { g with to_ := a.to_ } path statp
  else copy_checked PATH_MAX env g path statp

/-! ## The tree walk and the driver `ad_cp` -/

/-- Line 129-132, the directory-leave callback. -/
def upfunc (g : Globals) : Globals := { g with did := g.pdid }

mutual
/-- A source tree as the walker finds it: every node carries the name of the
entry, its `lstat` data, the answers of the environment while the entry is
processed, and (for a directory) its entries in `readdir` order. -/
inductive Tree where
  | node (name : CStr) (st : stat) (env : Env) (children : Forest)
/-- The entries of a directory. -/
inductive Forest where
  | nil
  | cons (t : Tree) (rest : Forest)
end

def Tree.name : Tree → CStr
  | .node n _ _ _ => n

mutual
/-- Modelled from the spec: the walker `nftw` of libatalk (`atalk/ftw.h`,
taken from glibc) is not part of the sources.  Pre-order walk with the
`FTW_ACTIONRETVAL` protocol: the callback is run on the entry; for a
directory a non-zero answer ends the visit of the directory with that
answer, otherwise its entries are walked at `level + 1` with `base` the
offset of the entry name, `FTW_SKIP_SIBLINGS` ends the directory quietly,
and the leave callback runs (ascending restores the previous parent). -/
def ftw_walk (PATH_MAX : Nat) (g : Globals) (path : CStr) (base level : Nat) :
    Tree → Result
  | .node _ st env children =>
    let r := copy PATH_MAX env g path st { base := base, level := level }
    match r.out with
    | .exit n => { out := .exit n, g := r.g, trace := r.trace }
    | .ret v =>
      if S_ISDIR st.st_mode && v == 0 then
        let pre := if path.getLast? = some '/' then path else path ++ ['/']
        let c := ftw_entries PATH_MAX r.g pre (level + 1) children
        match c.out with
        | .exit n => { out := .exit n, g := c.g, trace := r.trace ++ c.trace }
        | .ret w =>
          { out := .ret (if w = FTW_SKIP_SIBLINGS then 0 else w), g := upfunc c.g,
            trace := r.trace ++ c.trace }
      else r
/-- Modelled from the spec: the loop of the walker over the entries of one
directory; `FTW_SKIP_SUBTREE` from an entry counts as 0, any other non-zero
answer ends the loop and is handed upwards. -/
def ftw_entries (PATH_MAX : Nat) (g : Globals) (pre : CStr) (level : Nat) :
    Forest → Result
  | .nil => { out := .ret 0, g := g, trace := [] }
  | .cons t rest =>
    let r := ftw_walk PATH_MAX g (pre ++ t.name) pre.length level t
    match r.out with
    | .exit n => { out := .exit n, g := r.g, trace := r.trace }
    | .ret v =>
      if v = 0 ∨ v = FTW_SKIP_SUBTREE then
        let c := ftw_entries PATH_MAX r.g pre level rest
        { c with trace := r.trace ++ c.trace }
      else r
end

/-- Modelled from the spec: the entry point `nftw(dir, copy, upfunc, 20,
ftw_options)` of the walker that is not part of the sources.  Trailing
slashes of the root are dropped, `base` is the offset of its last component;
a root that cannot be examined (`none`) gives -1; the skip actions of the
root count as 0. -/
def nftw (PATH_MAX : Nat) (g : Globals) (dir : CStr) (root : Option Tree) : Result :=
  let path := (strip_loop dir dir.length).1
  match root with
  | none => { out := .ret (-1), g := g, trace := [] }
  | some t =>
    let r := ftw_walk PATH_MAX g path (path.length - (copy_dir path).length) 0 t
    match r.out with
    | .exit n => { out := .exit n, g := r.g, trace := r.trace }
    | .ret v =>
      { r with out := .ret (if v = FTW_SKIP_SUBTREE ∨ v = FTW_SKIP_SIBLINGS then 0 else v) }

def ENOENT : Nat := 2

/-- What `ad_cp` learns from the system before the walk: the `stat` of the
target (the `errno` on failure), the contents of `tmp_stat` after the
unchecked `lstat` of the first source, and the volume lookup `openvol`. -/
structure World where
  stat_target : Except Nat stat
  tmp_stat : stat
  openvol : CStr → afpvol_t

/-- Lines 200-213 of `ad_cp`: the cursor for the target argument and
`have_trailing_slash`; `none` when `ERROR` ends the run. -/
def ad_cp_target (PATH_MAX : Nat) (target : CStr) : Option (PATH_T × Bool) :=
  if target.length ≥ PATH_MAX then none
  else
    let p : CStr := if target = [] then ['.'] else target
    let have_trailing_slash : Bool := p.getLast? == some '/'
    let t : PATH_T := { p_path := p, p_end := p.length, target_end := 0 }
    let t1 := if have_trailing_slash then STRIP_TRAILING_SLASH t else t
    some ({ t1 with target_end := t1.p_end }, have_trailing_slash)

/-- Lines 232-269 of `ad_cp`: the copy mode, `none` when `ERROR` ends the
run.  `argc` counts the source arguments. -/
def ad_cp_type (r : Except Nat stat) (argc : Nat) (tmp_stat : stat)
    (Rflag have_trailing_slash : Bool) : Option op :=
  match r with
  | .error e =>
    if e ≠ ENOENT then none
    else if argc > 1 then none
    else
      let type := if S_ISDIR tmp_stat.st_mode && Rflag then op.DIR_TO_DNE
        else op.FILE_TO_FILE
      if have_trailing_slash ∧ type = op.FILE_TO_FILE then none else some type
  | .ok to_stat =>
    if !S_ISDIR to_stat.st_mode then
      if argc > 1 then none
      else if have_trailing_slash then none
      else some op.FILE_TO_FILE
    else some op.FILE_TO_DIR

/-- Lines 286-297 of `ad_cp`: the loop over the source arguments. -/
def ad_cp_loop (PATH_MAX : Nat) (openvol : CStr → afpvol_t) :
    Globals → List (CStr × Option Tree) → List Ev → Result
  | g, [], tr => { out := .ret g.rval, g := g, trace := tr }
  | g, (arg, root) :: rest, tr =>
    let g1 := { g with svolume := openvol g.to_.p_path }
    let r := nftw PATH_MAX g1 arg root
    match r.out with
    | .exit n => { out := .exit n, g := r.g, trace := tr ++ r.trace }
    | .ret v =>
      if v = -1 then { out := .exit 1, g := r.g, trace := tr ++ r.trace }
      else ad_cp_loop PATH_MAX openvol r.g rest (tr ++ r.trace)

/-- Lines 143-298, `ad_cp` after the option parsing has set the flags in
`g`: `sources` are the source arguments (each with the tree the walker finds
there), `target` is the last argument. -/
def ad_cp (PATH_MAX : Nat) (w : World) (g : Globals)
    (sources : List (CStr × Option Tree)) (target : CStr) : Result :=
  if sources.length < 1 then { out := .exit 1, g := g, trace := [] }
  else
    match ad_cp_target PATH_MAX target with
    | none => { out := .exit 1, g := g, trace := [] }
    | some (to_, have_trailing_slash) =>
      match ad_cp_type w.stat_target sources.length w.tmp_stat g.Rflag
          have_trailing_slash with
      | none => { out := .exit 1, g := { g with to_ := to_ }, trace := [] }
      | some type =>
        let g1 := { g with to_ := to_, type := type, dvolume := w.openvol to_.p_path }
        ad_cp_loop PATH_MAX w.openvol g1 sources []

/-! ## Auxiliary notions used in the statements -/

/-- Outcomes other than the skip action: the continue value, -1, or the end
of the process. -/
def Outcome.plain (o : Outcome) : Prop :=
  o = .ret 0 ∨ o = .ret (-1) ∨ ∃ n, o = .exit n

/-- The target part of the cursor: the characters before `target_end`. -/
def PATH_T.target (t : PATH_T) : CStr := t.p_path.take t.target_end

/-- The cursor holds a non-empty target: `1 ≤ target_end ≤ strlen(p_path)`,
as `ad_cp` sets it up. -/
def PATH_T.wf (t : PATH_T) : Prop := 1 ≤ t.target_end ∧ t.target_end ≤ t.p_path.length

/-- The join of the specification: exactly one slash is inserted unless the
target already ends with one or the suffix starts with one. -/
def spec_join (target s : CStr) : CStr :=
  if target.getLast? = some '/' ∨ s.head? = some '/' then target ++ s
  else target ++ '/' :: s

/-- Trailing slashes stripped as the specification words it: all of them,
except that the single-character path `/` remains. -/
def spec_strip (s : CStr) : CStr :=
  let body := (s.reverse.dropWhile (fun c => c == '/')).reverse
  if body = [] ∧ s ≠ [] then ['/'] else body

/-- The number of characters `copy` inserts between target and suffix. -/
def spec_sep (target s : CStr) : Nat :=
  if target.getLast? = some '/' ∨ s.head? = some '/' then 0 else 1

/-- The base offset of a root entry in the words of the specification: in
FileToDir mode the offset of the final component of the path, plus one when
that component is `..`; in DirToNonexistent mode the length of the path. -/
def spec_root_base (type : op) (path : CStr) : Nat :=
  if type = op.DIR_TO_DNE then path.length
  else
    let b := path.length - (copy_dir path).length
    if copy_dir path = "..".toList then b + 1 else b

/-! ## Sample data for concrete runs -/

/-- An environment in which every call succeeds and nothing exists at the
destination. -/
def sample_env : Env :=
  { stat_to := fun _ => none, stat_md := fun _ => none, mkdir_ok := true,
    umask_old := 0o22, copy_file_ok := true, cnid_for_path := fun _ => 17,
    ad_open_metadata_ok := true, vfs_copyfile_ok := true, open_src := 3, open_dst := 4,
    answer := [], mmap_ok := true, munmap_ok := true, phys_pages := 100000,
    malloc_ok := true, reads := [], write := fun _ => 5, link_ok := true,
    close_ok := true, readlink := fun _ => some "x".toList, unlink_ok := true,
    symlink_ok := true, utimes_ok := true, stat_set := none, chown_errno := none,
    chmod_ok := true }

/-- A volume without metadata tracking. -/
def sample_volume : afpvol_t :=
  { volinfo := { v_path := none, v_adouble := 0, v_ad_options := 0 }, db_stamp := 0 }

/-- The globals after `ad_cp` has stored the target `t` and the mode, with
recursion on and every other flag off. -/
def sample_globals (t : CStr) (type : op) : Globals :=
  { to_ := { p_path := t, p_end := t.length, target_end := t.length }, type := type,
    fflag := false, iflag := false, lflag := false, nflag := false, pflag := false,
    vflag := false, Rflag := true, pdid := 0, did := 0, svolume := sample_volume,
    dvolume := sample_volume, badcp := 0, rval := 0, bufsize := none }

/-- A regular file of five bytes (device 1, inode 2). -/
def sample_file : stat :=
  { st_dev := 1, st_ino := 2, st_mode := 0o100644, st_uid := 0, st_gid := 0,
    st_size := 5, st_atim := 0, st_mtim := 0 }

/-- A directory (device 1, inode 3). -/
def sample_dir : stat :=
  { st_dev := 1, st_ino := 3, st_mode := 0o040755, st_uid := 0, st_gid := 0,
    st_size := 0, st_atim := 0, st_mtim := 0 }

/-- A symbolic link (device 1, inode 4). -/
def sample_link : stat :=
  { st_dev := 1, st_ino := 4, st_mode := 0o120777, st_uid := 0, st_gid := 0,
    st_size := 1, st_atim := 0, st_mtim := 0 }

instance (t : PATH_T) : Decidable t.wf := by
  unfold PATH_T.wf
  infer_instance

/-- What `ad_cp` finds when the target is an existing directory. -/
def sample_world : World :=
  { stat_target := .ok sample_dir, tmp_stat := sample_file,
    openvol := fun _ => sample_volume }

/-- Calls that change the ownership. -/
def Ev.is_chown : Ev → Bool
  | .chown _ _ _ _ => true
  | .lchown _ _ _ _ => true
  | .fchown _ _ _ => true
  | _ => false

/-- Calls that change the mode, with the mode they apply. -/
def Ev.chmod_mode : Ev → Option Nat
  | .chmod _ m _ => some m
  | .fchmod m _ => some m
  | _ => none

/-- Permission bits of the destination after one call: a successful
`chmod` / `fchmod` sets them; a successful `chown` / `lchown` / `fchown`
clears setuid and setgid, the behaviour the comment of lines 760-765 relies
on ("current BSD behavior is to remove all setuid bits on chown"); every
other call, also a failed one, leaves them as they are. -/
def Ev.perm_after (cur : Nat) : Ev → Nat
  | .chmod _ m true => m
  | .fchmod m true => m
  | .chown _ _ _ true => cur &&& NOT_SUID_SGID
  | .lchown _ _ _ true => cur &&& NOT_SUID_SGID
  | .fchown _ _ true => cur &&& NOT_SUID_SGID
  | _ => cur

/-- Permission bits of the destination after a sequence of calls. -/
def perm_after (cur : Nat) (tr : List Ev) : Nat := tr.foldl Ev.perm_after cur

/-- The cursor with which `copy` examines the destination of an entry
(lines 311-370): `none` when the entry is skipped for its reserved name or
refused as too long. -/
def copy_cursor (PATH_MAX : Nat) (g : Globals) (path : CStr) (ftw : FTW) :
    Option PATH_T :=
  if (check_netatalk_dirs (copy_dir path)).isSome then none
  else if g.type ≠ op.FILE_TO_FILE then
    if (copy_append PATH_MAX g.to_ g.type path ftw).too_long then none
    else some (copy_append PATH_MAX g.to_ g.type path ftw).to_
  else some g.to_

/-- An environment in which the destination exists and is the regular file
`sample_file`. -/
def env_dst_file : Env := { sample_env with stat_to := fun _ => some sample_file }

/-- An environment in which the destination exists and is the directory
`sample_dir`. -/
def env_dst_dir : Env := { sample_env with stat_to := fun _ => some sample_dir }

/-- The command `cp -R d e .` run next to `d`: the tree under `d` (a
directory with one file), whose destination `./d` is `d` itself. -/
def tree_d : Tree :=
  .node "d".toList sample_dir env_dst_dir
    (.cons (.node "x".toList sample_file sample_env .nil) .nil)

/-- The second source of that command, a regular file whose destination
does not exist yet. -/
def tree_e : Tree :=
  .node "e".toList { sample_file with st_ino := 9 } sample_env .nil

/-- The destination of `chown`-refused attribute propagation: a file owned
by uid 7 with mode 0600. -/
def env_eperm : Env :=
  { sample_env with
    stat_set := some { sample_file with st_uid := 7, st_mode := 0o100600 },
    chown_errno := some EPERM }

/-- A setuid source file (mode 04755, uid 0). -/
def sample_suid : stat := { sample_file with st_mode := 0o104755 }

/-- The relative path `d/d/.../d` with `n + 1` components. -/
def deep_path : Nat → CStr
  | 0 => ['d']
  | n + 1 => 'd' :: '/' :: deep_path n

/-! ## Sample data for the metadata step -/

/-- A volume that tracks metadata in the version `AD_VERSION2`. -/
def tracked_volume : afpvol_t :=
  { volinfo := { v_path := some "/vol".toList, v_adouble := AD_VERSION2, v_ad_options := 0 },
    db_stamp := 0 }

/-- The globals of `sample_globals` with source and destination on tracked
volumes. -/
def tracked_globals (t : CStr) (type : op) : Globals :=
  { sample_globals t type with svolume := tracked_volume, dvolume := tracked_volume }

/-- An environment in which every call succeeds, nothing exists at the
destination, and the identifier service hands out `id`. -/
def env_cnid (id : Nat) : Env :=
  { sample_env with cnid_for_path := fun _ => id, stat_md := fun _ => some sample_dir }

/-- The globals after the events enter `R`, enter `R/A`, enter `R/A/B`,
leave `B` of the command `cp -R R t` on tracked volumes, the three
directories getting the identifiers 10, 11 and 12. -/
def after_leaving_B : Globals :=
  upfunc
    (copy 4096 (env_cnid 12)
      (copy 4096 (env_cnid 11)
        (copy 4096 (env_cnid 10) (tracked_globals "t".toList op.FILE_TO_DIR)
          "R".toList sample_dir { base := 0, level := 0 }).g
        "R/A".toList sample_dir { base := 2, level := 1 }).g
      "R/A/B".toList sample_dir { base := 4, level := 2 }).g

/-- The same run one event later: `A` has been left too. -/
def after_leaving_A : Globals := upfunc after_leaving_B

/-- The lookup `openvol` of a machine on which only the paths under `t` lie
on a metadata-tracking volume. -/
def openvol_only_t (p : CStr) : afpvol_t :=
  if p = "t".toList then tracked_volume else sample_volume

/-- What `ad_cp` finds for the command `cp s t`: `t` is an existing
directory on a tracked volume, the source `s` lies on an untracked one. -/
def world_only_t : World :=
  { stat_target := .ok sample_dir, tmp_stat := sample_file, openvol := openvol_only_t }

/-- The source `s` of that command, a regular file. -/
def tree_s : Tree := .node "s".toList sample_file sample_env .nil

/-! ## Classifying the calls of the content transfer -/

/-- The mapping attempts. -/
def Ev.is_mmap : Ev → Bool
  | .mmap _ => true
  | _ => false

/-- The `read` calls of the buffered loop. -/
def Ev.is_read : Ev → Bool
  | .read _ => true
  | _ => false

/-- The `write` calls. -/
def Ev.is_write : Ev → Bool
  | .write _ _ _ => true
  | _ => false

/-- A source file of `n` bytes, otherwise as `sample_file`. -/
def sample_sized (n : Int) : stat := { sample_file with st_size := n }

/-! ## The bytes a transfer appends -/

/-- The bytes one call appends to the destination, `src` being the source
content: a `write` at source offset `off` that returns `ret > 0` appends the
`ret` bytes from `off`; a `write` that returns `ret <= 0` and every other
call append nothing. -/
def Ev.appended {α : Type} (src : List α) : Ev → List α
  | .write off _ ret => if ret > 0 then (src.drop off).take ret.toNat else []
  | _ => []

/-- The bytes a sequence of calls appends to the destination, in order. -/
def appended {α : Type} (src : List α) : List Ev → List α
  | [] => []
  | e :: rest => e.appended src ++ appended src rest

/-- The model of `write` the claim is stated for: a call returns a value
`<= 0` or a count between 1 and the requested length. -/
def Ev.write_model : Ev → Prop
  | .write _ len ret => ret ≤ (len : Int)
  | _ => True

/-- A `write` call that reported an error (a value `<= 0`). -/
def Ev.write_failed : Ev → Prop
  | .write _ _ ret => ret ≤ 0
  | _ => False

/-- A `read` call that reported an error (a negative value). -/
def Ev.read_failed : Ev → Prop
  | .read ret => ret < 0
  | _ => False

instance (e : Ev) : Decidable e.write_model := by
  cases e <;> unfold Ev.write_model <;> infer_instance

instance (e : Ev) : Decidable e.write_failed := by
  cases e <;> unfold Ev.write_failed <;> infer_instance

instance (e : Ev) : Decidable e.read_failed := by
  cases e <;> unfold Ev.read_failed <;> infer_instance

/-- A `write` oracle that writes two bytes on the first call and whatever
is left afterwards. -/
def write_two_then_rest (k : Nat) : Int := if k = 0 then 2 else 3

/-! ## The invariant of the destination cursor -/

/-- The invariant of the destination cursor in the words of the
specification: `target_end <= p_end`, `p_end - p_path < PATH_MAX`, the buffer
read as a string ends exactly at `p_end`, and the path does not end with a
slash unless it is the single-character path `/`. -/
def PATH_T.inv (PATH_MAX : Nat) (t : PATH_T) : Prop :=
  t.target_end ≤ t.p_end ∧ t.p_end < PATH_MAX ∧ t.p_path.length = t.p_end ∧
  (t.p_path.getLast? = some '/' → t.p_path = ['/'])

/-- What every call of `copy` keeps of the cursor: the target is not empty,
lies inside the buffer, is shorter than `PATH_MAX` and does not end with a
slash unless it is `/`. -/
def PATH_T.target_ok (PATH_MAX : Nat) (t : PATH_T) : Prop :=
  1 ≤ t.target_end ∧ t.target_end ≤ t.p_path.length ∧ t.target_end < PATH_MAX ∧
  (t.target.getLast? = some '/' → t.target = ['/'])

instance (PATH_MAX : Nat) (t : PATH_T) : Decidable (t.inv PATH_MAX) := by
  unfold PATH_T.inv
  infer_instance

instance (PATH_MAX : Nat) (t : PATH_T) : Decidable (t.target_ok PATH_MAX) := by
  unfold PATH_T.target_ok
  infer_instance

/-- In `setfile`: the destination exists as a setuid file (mode 04755) of
another owner (uid 7), and every call succeeds, as for a privileged user. -/
def env_setuid_dst : Env :=
  { sample_env with
    stat_set := some { sample_file with st_uid := 7, st_mode := 0o104755 } }

/-- In `setfile`: the destination exists as a plain file (mode 0600) of
another owner (uid 7), and every call succeeds. -/
def env_plain_dst : Env :=
  { sample_env with
    stat_set := some { sample_file with st_uid := 7, st_mode := 0o100600 } }

/-- Calls that change the ownership, with the uid and gid they pass. -/
def Ev.chown_ids : Ev → Option (Nat × Nat)
  | .chown _ u g _ => some (u, g)
  | .lchown _ u g _ => some (u, g)
  | .fchown u g _ => some (u, g)
  | _ => none

/-- Lines 548-605 of `ftw_copy_file` with `lflag` clear: whether control
reaches the transfer of line 609.  The source was opened (line 548); when
the destination exists, `nflag` is clear (line 563) and under `iflag` the
answer starts with `y` or `Y` (line 573); the destination was opened
(line 601). -/
def transfer_reached (env : Env) (g : Globals) (dne : Bool) : Bool :=
  env.open_src != -1 &&
  (dne || (!g.nflag &&
    !(g.iflag && !(env.answer.head? == some 'y' || env.answer.head? == some 'Y')))) &&
  env.open_dst != -1

/-- The calls `ftw_copy_file` makes before the transfer when it reaches it
(lines 548-598, `lflag` clear): the source is opened, the answer is read
under `iflag`, the destination is removed under `fflag`, the destination is
opened. -/
def calls_before_transfer (g : Globals) (spath : CStr) (sp : stat) (dne : Bool) :
    List Ev :=
  [Ev.open_rdonly spath] ++
  (if !dne && g.iflag then [Ev.getchar] else []) ++
  (if !dne && g.fflag then [Ev.unlink g.to_.p_path, Ev.vfs_deletefile g.to_.p_path]
   else []) ++
  [if dne || g.fflag then Ev.open_trunc g.to_.p_path true (sp.st_mode &&& NOT_SUID_SGID)
   else Ev.open_trunc g.to_.p_path false 0]

/-- The calls after the transfer (lines 694-707, `lflag` clear): `setfile`
under `pflag`, then both descriptors are closed. -/
def calls_after_transfer (env : Env) (g : Globals) (sp : stat) : List Ev :=
  (if g.pflag then (setfile env g.to_.p_path sp env.open_dst).trace else []) ++
    [Ev.close_to, Ev.close_from]

/-! ## Theorems -/


theorem strrchr_eq_none {c : Char} {s : CStr} : strrchr c s = none ↔ c ∉ s := by
  induction s with
  | nil => simp [strrchr]
  | cons x xs ih =>
    simp only [strrchr]
    cases h : strrchr c xs with
    | some r =>
      have : ¬ (c ∉ xs) := fun hn => by rw [ih.mpr hn] at h; cases h
      simp at this
      simp [this]
    | none =>
      have hn := ih.mp h
      by_cases hx : x = c
      · simp [hx]
      · simp [hx, hn]; exact fun h => hx h.symm

theorem strrchr_eq_some {c : Char} {s r : CStr} (h : strrchr c s = some r) :
    ∃ pre t, s = pre ++ c :: t ∧ r = c :: t ∧ c ∉ t := by
  induction s generalizing r with
  | nil => simp [strrchr] at h
  | cons x xs ih =>
    simp only [strrchr] at h
    cases h2 : strrchr c xs with
    | some r2 =>
      rw [h2] at h
      obtain ⟨pre, t, h3, h4, h5⟩ := ih h2
      simp at h
      exact ⟨x :: pre, t, by simp [h3], by rw [← h, h4], h5⟩
    | none =>
      rw [h2] at h
      by_cases hx : x = c
      · simp [hx] at h
        exact ⟨[], xs, by simp [hx], by rw [← h], strrchr_eq_none.mp h2⟩
      · simp [hx] at h

theorem strrchr_append_cons {c : Char} (pre t : CStr) (ht : c ∉ t) :
    strrchr c (pre ++ c :: t) = some (c :: t) := by
  induction pre with
  | nil => simp [strrchr, strrchr_eq_none.mpr ht]
  | cons x xs ih => simp [strrchr, ih]

/-- The text after the last slash, characterised. -/
theorem copy_dir_eq_iff (path name : CStr) (hn : '/' ∉ name) :
    copy_dir path = name ↔ (path = name ∨ ∃ pre, path = pre ++ '/' :: name) := by
  constructor
  · intro h
    unfold copy_dir at h
    cases h2 : strrchr '/' path with
    | none => rw [h2] at h; left; exact h
    | some r =>
      rw [h2] at h
      obtain ⟨pre, t, h3, h4, _⟩ := strrchr_eq_some h2
      right
      refine ⟨pre, ?_⟩
      simp [h4] at h
      rw [h3, h]
  · rintro (h | ⟨pre, h⟩)
    · subst h
      simp [copy_dir, strrchr_eq_none.mpr hn]
    · subst h
      simp [copy_dir, strrchr_append_cons pre name hn]

theorem check_netatalk_dirs_isSome (name : CStr) :
    (check_netatalk_dirs name).isSome = true ↔ name ∈ netatalk_dirs := by
  unfold check_netatalk_dirs
  rw [List.find?_isSome]
  constructor
  · rintro ⟨x, hx, h⟩
    have : name = x := by simpa using h
    rw [this]; exact hx
  · intro h
    exact ⟨name, h, by simp⟩

theorem netatalk_dirs_no_slash (name : CStr) (h : name ∈ netatalk_dirs) : '/' ∉ name := by
  simp [netatalk_dirs] at h
  rcases h with h | h | h <;> subst h <;> decide

theorem copy_directory_meta_plain (env : Env) (g : Globals) (path : CStr) (statp : stat)
    (tr0 : List Ev) : (copy_directory_meta env g path statp tr0).out.plain := by
  unfold copy_directory_meta Outcome.plain
  simp only []
  repeat' split
  all_goals simp

theorem copy_directory_plain (env : Env) (g : Globals) (path : CStr) (statp : stat)
    (ts : Option stat) : (copy_directory env g path statp ts).out.plain := by
  unfold copy_directory
  simp only []
  repeat' split
  all_goals first
    | exact copy_directory_meta_plain _ _ _ _ _
    | simp [Outcome.plain]

theorem copy_regular_plain (env : Env) (g : Globals) (path : CStr) (statp : stat)
    (dne : Bool) : (copy_regular env g path statp dne).out.plain := by
  unfold copy_regular
  simp only []
  repeat' split
  all_goals simp [Outcome.plain]

theorem copy_dispatch_plain (PATH_MAX : Nat) (env : Env) (g : Globals) (path : CStr)
    (statp : stat) (ts : Option stat) :
    (copy_dispatch PATH_MAX env g path statp ts).out.plain := by
  unfold copy_dispatch
  simp only []
  repeat' split
  all_goals first
    | exact copy_directory_plain _ _ _ _ _
    | exact copy_regular_plain _ _ _ _ _
    | simp [Outcome.plain]

theorem copy_checked_plain (PATH_MAX : Nat) (env : Env) (g : Globals) (path : CStr)
    (statp : stat) : (copy_checked PATH_MAX env g path statp).out.plain := by
  unfold copy_checked
  simp only []
  repeat' split
  all_goals first
    | exact copy_dispatch_plain _ _ _ _ _ _
    | simp [Outcome.plain]

theorem plain_ne_skip {o : Outcome} (h : o.plain) : o ≠ .ret FTW_SKIP_SUBTREE := by
  rcases h with h | h | ⟨n, h⟩ <;> rw [h] <;> simp [FTW_SKIP_SUBTREE]

/-- C5: `copy` answers with the skip-subtree action exactly when the text
after the last slash of the path (the whole path when it has no slash) is
one of the three reserved names, compared character by character; and then
the globals (failure flags, destination cursor) are unchanged and no call is
made. -/
theorem C5_skip_iff_reserved_basename (PATH_MAX : Nat) (env : Env) (g : Globals)
    (path : CStr) (statp : stat) (ftw : FTW) :
    ((copy PATH_MAX env g path statp ftw).out = .ret FTW_SKIP_SUBTREE ↔
      ∃ name ∈ [".AppleDouble".toList, ".AppleDB".toList, ".AppleDesktop".toList],
        path = name ∨ ∃ pre, path = pre ++ '/' :: name) ∧
    ((copy PATH_MAX env g path statp ftw).out = .ret FTW_SKIP_SUBTREE →
      (copy PATH_MAX env g path statp ftw).g = g ∧
      (copy PATH_MAX env g path statp ftw).trace = []) := by
  have key : (check_netatalk_dirs (copy_dir path)).isSome = true ↔
      ∃ name ∈ netatalk_dirs, path = name ∨ ∃ pre, path = pre ++ '/' :: name := by
    rw [check_netatalk_dirs_isSome]
    constructor
    · intro h
      exact ⟨copy_dir path, h,
        (copy_dir_eq_iff path _ (netatalk_dirs_no_slash _ h)).mp rfl⟩
    · rintro ⟨name, hn, h⟩
      rw [(copy_dir_eq_iff path name (netatalk_dirs_no_slash _ hn)).mpr h]
      exact hn
  have hskip : (copy PATH_MAX env g path statp ftw).out = .ret FTW_SKIP_SUBTREE ↔
      (check_netatalk_dirs (copy_dir path)).isSome = true := by
    unfold copy
    by_cases h1 : (check_netatalk_dirs (copy_dir path)).isSome = true
    · simp [h1]
    · simp only [h1, if_false, false_iff, Bool.false_eq_true]
      split_ifs
      · simp [FTW_SKIP_SUBTREE]
      · exact iff_of_false (plain_ne_skip (copy_checked_plain _ _ _ _ _)) id
      · exact iff_of_false (plain_ne_skip (copy_checked_plain _ _ _ _ _)) id
  refine ⟨hskip.trans key, ?_⟩
  intro h
  have h1 := hskip.mp h
  simp [copy, h1]

/-! ### The destination cursor -/

theorem strip_loop_length_le (e : Nat) (buf : CStr) :
    (strip_loop buf e).1.length ≤ buf.length := by
  induction e generalizing buf with
  | zero => simp [strip_loop]
  | succ e ih =>
    unfold strip_loop
    split_ifs
    · exact le_trans (ih _) (by simp)
    · simp

theorem strip_loop_eq_spec (s : CStr) :
    strip_loop s s.length = (spec_strip s, (spec_strip s).length) := by
  induction s using List.reverseRecOn with
  | nil => simp [strip_loop, spec_strip]
  | append_singleton init last ih =>
    have hlen : (init ++ [last]).length = init.length + 1 := by simp
    rw [hlen]
    unfold strip_loop
    have hget : (init ++ [last]).get? init.length = some last := by simp
    rw [hget]
    by_cases hl : last = '/'
    · subst hl
      by_cases hi : init = []
      · subst hi
        simp [spec_strip]
      · have hpos : 0 < init.length := List.length_pos.mpr hi
        have h1 : 1 < init.length + 1 := by omega
        simp only [h1, true_and, if_true]
        rw [List.take_left', ih]
        · simp [spec_strip, hi]
        · rfl
    · have : ¬ (1 < init.length + 1 ∧ some last = some '/') := by
        intro h; exact hl (by simpa using h.2)
      simp only [this, if_false]
      have hb : ((init ++ [last]).reverse.dropWhile (fun c => c == '/')).reverse
          = init ++ [last] := by
        simp [List.dropWhile, hl]
      unfold spec_strip
      simp only []
      rw [hb]
      simp

theorem take_getLast? (l : CStr) (n : Nat) (h1 : 1 ≤ n) (h2 : n ≤ l.length) :
    (l.take n).getLast? = l.get? (n - 1) := by
  rw [List.getLast?_eq_getElem?, List.length_take, min_eq_left h2, List.get?_eq_getElem?,
    List.getElem?_take_of_lt (by omega)]

/-- The separator decision of line 358 in the words of the specification. -/
theorem sep_eq_spec (t : PATH_T) (p : CStr) (hwf : t.wf) :
    (if (p.head? != some '/' && t.p_path.get? (t.target_end - 1) != some '/') = true
      then t.target_end + 1 else t.target_end) = t.target_end + spec_sep t.target p ∧
    (t.p_path.take t.target_end ++
      (if (p.head? != some '/' && t.p_path.get? (t.target_end - 1) != some '/') = true
        then ['/'] else [])) ++ p = spec_join t.target p := by
  unfold spec_sep spec_join PATH_T.target
  rw [take_getLast? _ _ hwf.1 hwf.2]
  simp only [List.get?_eq_getElem?]
  by_cases h1 : p.head? = some '/' <;>
  by_cases h2 : t.p_path[t.target_end - 1]? = some '/' <;>
  simp [h1, h2]

theorem spec_join_length (t : PATH_T) (p : CStr) (hwf : t.wf) :
    (spec_join t.target p).length = t.target_end + spec_sep t.target p + p.length := by
  have hlen : t.target.length = t.target_end := by
    simp [PATH_T.target, hwf.2]
  unfold spec_join spec_sep
  split_ifs
  · simp [hlen]
  · simp [hlen]; omega

theorem copy_append_too_long (PATH_MAX : Nat) (t : PATH_T) (type : op) (path : CStr)
    (ftw : FTW) (hwf : t.wf) :
    (copy_append PATH_MAX t type path ftw).too_long = true ↔
      t.target_end + spec_sep t.target (path.drop (copy_base type path ftw)) +
        (path.drop (copy_base type path ftw)).length ≥ PATH_MAX := by
  have hd : path.length - copy_base type path ftw =
      (path.drop (copy_base type path ftw)).length := by simp
  unfold copy_append
  simp only []
  rw [hd, (sep_eq_spec t _ hwf).1]
  by_cases h : t.target_end + spec_sep t.target (path.drop (copy_base type path ftw)) +
      (path.drop (copy_base type path ftw)).length ≥ PATH_MAX
  · rw [if_pos h]; exact iff_of_true rfl h
  · rw [if_neg h]; exact iff_of_false (by simp) h

theorem copy_append_path (PATH_MAX : Nat) (t : PATH_T) (type : op) (path : CStr)
    (ftw : FTW) (hwf : t.wf)
    (h : (copy_append PATH_MAX t type path ftw).too_long = false) :
    (copy_append PATH_MAX t type path ftw).to_.p_path =
      spec_strip (spec_join t.target (path.drop (copy_base type path ftw))) ∧
    (copy_append PATH_MAX t type path ftw).to_.p_end =
      (spec_strip (spec_join t.target (path.drop (copy_base type path ftw)))).length ∧
    (copy_append PATH_MAX t type path ftw).to_.target_end = t.target_end := by
  have hd : path.length - copy_base type path ftw =
      (path.drop (copy_base type path ftw)).length := by simp
  unfold copy_append at h ⊢
  simp only [] at h ⊢
  rw [hd] at h ⊢
  rw [(sep_eq_spec t _ hwf).1] at h ⊢
  rw [List.take_length, (sep_eq_spec t _ hwf).2, ← spec_join_length t _ hwf] at h ⊢
  by_cases hc : (spec_join t.target (path.drop (copy_base type path ftw))).length ≥ PATH_MAX
  · simp [hc] at h
  · simp only [hc, if_false, STRIP_TRAILING_SLASH, strip_loop_eq_spec]
    simp

/-! ### What `copy` leaves alone -/

theorem copy_directory_meta_to (env : Env) (g : Globals) (path : CStr) (statp : stat)
    (tr0 : List Ev) : (copy_directory_meta env g path statp tr0).g.to_ = g.to_ := by
  unfold copy_directory_meta
  simp only []
  repeat' split
  all_goals simp [failed]

theorem copy_directory_to (env : Env) (g : Globals) (path : CStr) (statp : stat)
    (ts : Option stat) : (copy_directory env g path statp ts).g.to_ = g.to_ := by
  unfold copy_directory
  simp only []
  repeat' split
  all_goals first
    | exact copy_directory_meta_to _ _ _ _ _
    | simp [failed]

theorem copy_regular_to (env : Env) (g : Globals) (path : CStr) (statp : stat)
    (dne : Bool) : (copy_regular env g path statp dne).g.to_ = g.to_ := by
  unfold copy_regular
  simp only []
  repeat' split
  all_goals simp [failed]

theorem copy_dispatch_to (PATH_MAX : Nat) (env : Env) (g : Globals) (path : CStr)
    (statp : stat) (ts : Option stat) :
    (copy_dispatch PATH_MAX env g path statp ts).g.to_ = g.to_ := by
  unfold copy_dispatch
  simp only []
  repeat' split
  all_goals first
    | exact copy_directory_to _ _ _ _ _
    | exact copy_regular_to _ _ _ _ _
    | simp [failed]

theorem copy_checked_to (PATH_MAX : Nat) (env : Env) (g : Globals) (path : CStr)
    (statp : stat) : (copy_checked PATH_MAX env g path statp).g.to_ = g.to_ := by
  unfold copy_checked
  simp only []
  repeat' split
  all_goals first
    | exact copy_dispatch_to _ _ _ _ _ _
    | simp [failed]

theorem copy_checked_trace_head (PATH_MAX : Nat) (env : Env) (g : Globals) (path : CStr)
    (statp : stat) :
    (copy_checked PATH_MAX env g path statp).trace.head? = some (Ev.stat g.to_.p_path) := by
  unfold copy_checked
  simp only []
  repeat' split
  all_goals simp

/-- The length check of lines 361-365, for an entry that reaches the
path-building step of `copy` (its name is not a reserved one) in a mode other
than FileToFile, with s the suffix to append: `copy` refuses the entry (it
makes no call for it, not even the `stat` of the destination) exactly when
the length of the target including an inserted separator plus the length of
s reaches `PATH_MAX`; a refused entry sets `badcp` and `rval` and the answer
is 0 (continue); an accepted entry gets a destination path shorter than
`PATH_MAX`, which is the path `copy` examines first. -/
theorem length_check (PATH_MAX : Nat) (env : Env) (g : Globals) (path : CStr)
    (statp : stat) (ftw : FTW)
    (hty : g.type ≠ op.FILE_TO_FILE)
    (hname : check_netatalk_dirs (copy_dir path) = none)
    (hwf : g.to_.wf) :
    ((copy PATH_MAX env g path statp ftw).trace = [] ↔
      g.to_.target_end +
        spec_sep g.to_.target (path.drop (copy_base g.type path ftw)) +
        (path.drop (copy_base g.type path ftw)).length ≥ PATH_MAX) ∧
    (g.to_.target_end +
        spec_sep g.to_.target (path.drop (copy_base g.type path ftw)) +
        (path.drop (copy_base g.type path ftw)).length ≥ PATH_MAX →
      (copy PATH_MAX env g path statp ftw).out = .ret 0 ∧
      (copy PATH_MAX env g path statp ftw).g.badcp = 1 ∧
      (copy PATH_MAX env g path statp ftw).g.rval = 1) ∧
    (g.to_.target_end +
        spec_sep g.to_.target (path.drop (copy_base g.type path ftw)) +
        (path.drop (copy_base g.type path ftw)).length < PATH_MAX →
      (copy PATH_MAX env g path statp ftw).g.to_.p_path.length < PATH_MAX ∧
      (copy PATH_MAX env g path statp ftw).trace.head? =
        some (Ev.stat (copy PATH_MAX env g path statp ftw).g.to_.p_path)) := by
  have hlong := copy_append_too_long PATH_MAX g.to_ g.type path ftw hwf
  by_cases hc : (copy_append PATH_MAX g.to_ g.type path ftw).too_long = true
  · have hcopy : copy PATH_MAX env g path statp ftw =
        { out := .ret 0,
          g := failed { g with to_ := (copy_append PATH_MAX g.to_ g.type path ftw).to_ },
          trace := [] } := by
      simp [copy, hname, hty, hc]
    have htot := hlong.mp hc
    rw [hcopy]
    refine ⟨iff_of_true rfl htot, fun _ => ⟨rfl, rfl, rfl⟩, fun h => ?_⟩
    omega
  · have hc2 : (copy_append PATH_MAX g.to_ g.type path ftw).too_long = false := by
      simpa using hc
    have hcopy : copy PATH_MAX env g path statp ftw =
        copy_checked PATH_MAX env
          { g with to_ := (copy_append PATH_MAX g.to_ g.type path ftw).to_ } path statp := by
      simp [copy, hname, hty, hc2]
    have htot : ¬ (g.to_.target_end +
        spec_sep g.to_.target (path.drop (copy_base g.type path ftw)) +
        (path.drop (copy_base g.type path ftw)).length ≥ PATH_MAX) :=
      fun h => hc (hlong.mpr h)
    have hhead := copy_checked_trace_head PATH_MAX env
      { g with to_ := (copy_append PATH_MAX g.to_ g.type path ftw).to_ } path statp
    have hto := copy_checked_to PATH_MAX env
      { g with to_ := (copy_append PATH_MAX g.to_ g.type path ftw).to_ } path statp
    rw [hcopy]
    refine ⟨iff_of_false ?_ htot, fun h => absurd h htot, fun h => ⟨?_, ?_⟩⟩
    · intro hnil
      rw [hnil] at hhead
      simp at hhead
    · rw [hto]
      simp only []
      rw [(copy_append_path PATH_MAX g.to_ g.type path ftw hwf hc2).1]
      have h1 : (spec_strip (spec_join g.to_.target
          (path.drop (copy_base g.type path ftw)))).length ≤
          (spec_join g.to_.target (path.drop (copy_base g.type path ftw))).length := by
        have := strip_loop_length_le
          (spec_join g.to_.target (path.drop (copy_base g.type path ftw))).length
          (spec_join g.to_.target (path.drop (copy_base g.type path ftw)))
        rw [strip_loop_eq_spec] at this
        exact this
      rw [spec_join_length _ _ hwf] at h1
      omega
    · rw [hhead, hto]

theorem spec_strip_append_slash (t : CStr) (h1 : t ≠ []) (h2 : t.getLast? ≠ some '/') :
    spec_strip (t ++ ['/']) = t := by
  have hh : t.reverse.head? ≠ some '/' := by simpa using h2
  have hd : t.reverse.dropWhile (fun c => c == '/') = t.reverse := by
    cases hr : t.reverse with
    | nil => simp
    | cons x xs =>
      rw [hr] at hh
      have : x ≠ '/' := by simpa using hh
      rw [List.dropWhile_cons_of_neg]
      simpa using this
  unfold spec_strip
  simp [List.dropWhile, hd, h1]

theorem copy_dir_suffix (path : CStr) : ∃ pre, path = pre ++ copy_dir path := by
  have hd : ∀ name, copy_dir path = name → ∃ pre, path = pre ++ name := by
    intro name h
    unfold copy_dir at h
    cases h2 : strrchr '/' path with
    | none => rw [h2] at h; exact ⟨[], by simpa using h⟩
    | some r =>
      rw [h2] at h
      obtain ⟨pre, t, h3, h4, _⟩ := strrchr_eq_some h2
      refine ⟨pre ++ ['/'], ?_⟩
      simp [h4] at h
      rw [h3, ← h]
      simp
  exact hd _ rfl

theorem copy_base_root (type : op) (path : CStr) (ftw : FTW) (hlevel : ftw.level = 0)
    (hbase : ftw.base = path.length - (copy_dir path).length) :
    copy_base type path ftw = spec_root_base type path := by
  obtain ⟨pre, hpre⟩ := copy_dir_suffix path
  have hlen : path.length - (copy_dir path).length = pre.length := by
    have := congrArg List.length hpre
    simp at this
    omega
  have hdrop : path.drop ftw.base = copy_dir path := by
    rw [hbase, hlen]
    nth_rewrite 1 [hpre]
    exact List.drop_left _ _
  unfold copy_base spec_root_base
  simp only [hlevel, if_true, hdrop]
  by_cases hd : type = op.DIR_TO_DNE
  · simp [hd]
  · simp [hd, hbase]

/-- C3 (amended): for a root entry (level 0, `base` the offset of the final component
as the walker supplies it) in a mode other than FileToFile, which reaches
the path-building step (its name is not a reserved one) and is accepted by
the length check, `copy` sets the destination to the join of the target and
the suffix s with trailing slashes stripped, where s is the source path from
the offset `spec_root_base` onward and the join inserts exactly one slash
unless the target ends with one or s starts with one.  In DirToNonexistent
mode the destination of the root is the target itself. -/
theorem C3_root_destination (PATH_MAX : Nat) (env : Env) (g : Globals) (path : CStr)
    (statp : stat) (ftw : FTW)
    (hlevel : ftw.level = 0)
    (hbase : ftw.base = path.length - (copy_dir path).length)
    (hty : g.type ≠ op.FILE_TO_FILE)
    (hname : check_netatalk_dirs (copy_dir path) = none)
    (hwf : g.to_.wf)
    (hfit : g.to_.target_end +
        spec_sep g.to_.target (path.drop (spec_root_base g.type path)) +
        (path.drop (spec_root_base g.type path)).length < PATH_MAX) :
    (copy PATH_MAX env g path statp ftw).g.to_.p_path =
      spec_strip (spec_join g.to_.target (path.drop (spec_root_base g.type path))) ∧
    (g.type = op.DIR_TO_DNE →
      (g.to_.target.getLast? ≠ some '/' ∨ g.to_.target = ['/']) →
      (copy PATH_MAX env g path statp ftw).g.to_.p_path = g.to_.target) := by
  have hb := copy_base_root g.type path ftw hlevel hbase
  have hlong := copy_append_too_long PATH_MAX g.to_ g.type path ftw hwf
  rw [hb] at hlong
  have hc2 : (copy_append PATH_MAX g.to_ g.type path ftw).too_long = false := by
    cases h : (copy_append PATH_MAX g.to_ g.type path ftw).too_long with
    | false => rfl
    | true => have := hlong.mp h; omega
  have hcopy : copy PATH_MAX env g path statp ftw =
      copy_checked PATH_MAX env
        { g with to_ := (copy_append PATH_MAX g.to_ g.type path ftw).to_ } path statp := by
    simp [copy, hname, hty, hc2]
  have hpath := (copy_append_path PATH_MAX g.to_ g.type path ftw hwf hc2).1
  rw [hb] at hpath
  have hres : (copy PATH_MAX env g path statp ftw).g.to_.p_path =
      spec_strip (spec_join g.to_.target (path.drop (spec_root_base g.type path))) := by
    rw [hcopy, copy_checked_to]
    exact hpath
  refine ⟨hres, fun hdne hts => ?_⟩
  rw [hres]
  have hnil : path.drop (spec_root_base g.type path) = [] := by
    simp [spec_root_base, hdne]
  rw [hnil]
  have hne : g.to_.target ≠ [] := by
    have hlen : g.to_.target.length = g.to_.target_end := by
      simp [PATH_T.target, hwf.2]
    intro h
    rw [h] at hlen
    have := hwf.1
    simp at hlen
    omega
  rcases hts with hts | hts
  · unfold spec_join
    simp only [hts, List.head?_nil, false_or, if_false]
    · exact spec_strip_append_slash _ hne hts
  · rw [hts]
    decide

theorem C3_root_destination_witness :
    (copy 4096 sample_env (sample_globals "t".toList op.FILE_TO_DIR) "a/dir".toList
        sample_dir { base := 2, level := 0 }).g.to_.p_path = "t/dir".toList ∧
    (copy 4096 sample_env (sample_globals "/tmp".toList op.FILE_TO_DIR) "..".toList
        sample_dir { base := 0, level := 0 }).g.to_.p_path = "/tmp/.".toList ∧
    (copy 4096 sample_env (sample_globals "noexist".toList op.DIR_TO_DNE) "a/dir".toList
        sample_dir { base := 2, level := 0 }).g.to_.p_path = "noexist".toList :=
  ⟨(C3_root_destination 4096 sample_env (sample_globals "t".toList op.FILE_TO_DIR)
      "a/dir".toList sample_dir { base := 2, level := 0 }
      (by decide) (by decide) (by decide) (by decide) (by decide) (by decide)).1.trans
      (by decide),
   (C3_root_destination 4096 sample_env (sample_globals "/tmp".toList op.FILE_TO_DIR)
      "..".toList sample_dir { base := 0, level := 0 }
      (by decide) (by decide) (by decide) (by decide) (by decide) (by decide)).1.trans
      (by decide),
   (C3_root_destination 4096 sample_env (sample_globals "noexist".toList op.DIR_TO_DNE)
      "a/dir".toList sample_dir { base := 2, level := 0 }
      (by decide) (by decide) (by decide) (by decide) (by decide) (by decide)).2
      (by decide) (by decide)⟩


/-! ### The copy mode -/

/-- C4: the copy mode `ad_cp` computes before the walk, as a function of
whether the destination exists (its `stat` succeeds, otherwise it reports
`ENOENT`), whether it is a directory, the number of sources, whether the
first source is a directory, the recursion flag and the trailing slash of
the destination argument: FileToDir iff the destination exists and is a
directory; DirToNonexistent iff it does not exist, there is exactly one
source, that is a directory and recursion is on; FileToFile iff there is
exactly one source, neither of the former holds and there was no trailing
slash; in every other case the run ends with an error and an empty trace
(no entry is visited), as it does when `stat` fails for another reason.
The trailing slash is that of the argument as given. -/
theorem C4_copy_mode (PATH_MAX : Nat) (w : World) (g : Globals)
    (sources : List (CStr × Option Tree)) (target : CStr) (to_ : PATH_T)
    (dst_exists have_trailing_slash : Bool) (to_stat : stat)
    (hsrc : 1 ≤ sources.length)
    (htarget : ad_cp_target PATH_MAX target = some (to_, have_trailing_slash))
    (hstat : w.stat_target = if dst_exists then .ok to_stat else .error ENOENT) :
    (ad_cp_type w.stat_target sources.length w.tmp_stat g.Rflag have_trailing_slash
        = some op.FILE_TO_DIR ↔
      dst_exists = true ∧ S_ISDIR to_stat.st_mode = true) ∧
    (ad_cp_type w.stat_target sources.length w.tmp_stat g.Rflag have_trailing_slash
        = some op.DIR_TO_DNE ↔
      dst_exists = false ∧ sources.length = 1 ∧ S_ISDIR w.tmp_stat.st_mode = true ∧
        g.Rflag = true) ∧
    (ad_cp_type w.stat_target sources.length w.tmp_stat g.Rflag have_trailing_slash
        = some op.FILE_TO_FILE ↔
      sources.length = 1 ∧
        ¬ (dst_exists = true ∧ S_ISDIR to_stat.st_mode = true) ∧
        ¬ (dst_exists = false ∧ sources.length = 1 ∧
            S_ISDIR w.tmp_stat.st_mode = true ∧ g.Rflag = true) ∧
        have_trailing_slash = false) ∧
    (ad_cp_type w.stat_target sources.length w.tmp_stat g.Rflag have_trailing_slash
        = none →
      (ad_cp PATH_MAX w g sources target).out = .exit 1 ∧
      (ad_cp PATH_MAX w g sources target).trace = []) ∧
    (∀ type, ad_cp_type w.stat_target sources.length w.tmp_stat g.Rflag
        have_trailing_slash = some type →
      ad_cp PATH_MAX w g sources target =
        ad_cp_loop PATH_MAX w.openvol
          { g with to_ := to_, type := type, dvolume := w.openvol to_.p_path }
          sources []) ∧
    (∀ e argc tmp R slash, e ≠ ENOENT → ad_cp_type (.error e) argc tmp R slash = none) ∧
    have_trailing_slash = (target.getLast? == some '/') := by
  have hn : ¬ sources.length < 1 := by omega
  refine ⟨?_, ?_, ?_, ?_, ?_, ?_, ?_⟩
  · rw [hstat]
    cases dst_exists <;> cases have_trailing_slash <;>
      cases hd : S_ISDIR to_stat.st_mode <;>
      cases hs : S_ISDIR w.tmp_stat.st_mode <;> cases g.Rflag <;>
      by_cases h1 : sources.length > 1 <;> simp [ad_cp_type, hd, hs, h1]
  · rw [hstat]
    cases dst_exists <;> cases have_trailing_slash <;>
      cases hd : S_ISDIR to_stat.st_mode <;>
      cases hs : S_ISDIR w.tmp_stat.st_mode <;> cases g.Rflag <;>
      by_cases h1 : sources.length > 1 <;> simp [ad_cp_type, hd, hs, h1] <;> omega
  · rw [hstat]
    cases dst_exists <;> cases have_trailing_slash <;>
      cases hd : S_ISDIR to_stat.st_mode <;>
      cases hs : S_ISDIR w.tmp_stat.st_mode <;> cases g.Rflag <;>
      by_cases h1 : sources.length > 1 <;> simp [ad_cp_type, hd, hs, h1] <;> omega
  · intro h
    simp [ad_cp, hn, htarget, h]
  · intro type h
    simp [ad_cp, hn, htarget, h]
  · intro e argc tmp R slash he
    simp [ad_cp_type, he]
  · unfold ad_cp_target at htarget
    by_cases hl : target.length ≥ PATH_MAX
    · simp [hl] at htarget
    · simp only [hl, if_false, Option.some.injEq, Prod.mk.injEq] at htarget
      rw [← htarget.2]
      by_cases he : target = []
      · subst he; rfl
      · simp [he]

theorem C4_copy_mode_witness :
    ad_cp_type sample_world.stat_target [("a".toList, (none : Option Tree))].length
      sample_world.tmp_stat (sample_globals "t".toList op.FILE_TO_FILE).Rflag false
      = some op.FILE_TO_DIR :=
  (C4_copy_mode 4096 sample_world (sample_globals "t".toList op.FILE_TO_FILE)
    [("a".toList, none)] "t".toList { p_path := "t".toList, p_end := 1, target_end := 1 }
    true false sample_dir (by decide) (by decide) rfl).1.mpr ⟨rfl, by decide⟩

/-! ### Attribute propagation -/

theorem PERM_BITS_eq : PERM_BITS = 0o7777 := by decide

theorem land_clear_suid_sgid (m : Nat) :
    (m &&& PERM_BITS) &&& NOT_SUID_SGID = (m &&& 0o7777) &&& 0o1777 := by
  rw [Nat.land_assoc, Nat.land_assoc]
  have h1 : PERM_BITS &&& NOT_SUID_SGID = 0o1777 := by decide
  have h2 : (0o7777 : Nat) &&& 0o1777 = 0o1777 := by decide
  rw [h1, h2]

theorem setfile_chown_iff (env : Env) (dst : CStr) (fs : stat) (fd : Int) :
    (∃ e ∈ (setfile env dst fs fd).trace, e.is_chown = true) ↔
      setfile_want_chown env fs = true := by
  unfold setfile
  simp only []
  generalize (fd != -1) = fdval
  generalize S_ISLNK fs.st_mode = islink
  generalize setfile_want_chown env fs = wc
  generalize setfile_want_chmod env fs = wm
  cases fdval <;> cases islink <;> cases wc <;> cases wm <;>
    simp [Ev.is_chown]

theorem setfile_chmod_iff (env : Env) (dst : CStr) (fs : stat) (fd : Int) :
    (∃ e ∈ (setfile env dst fs fd).trace, e.chmod_mode ≠ none) ↔
      setfile_want_chmod env fs = true := by
  unfold setfile
  simp only []
  generalize (fd != -1) = fdval
  generalize S_ISLNK fs.st_mode = islink
  generalize setfile_want_chown env fs = wc
  generalize setfile_want_chmod env fs = wm
  cases fdval <;> cases islink <;> cases wc <;> cases wm <;>
    simp [Ev.chmod_mode]

theorem setfile_chmod_mode (env : Env) (dst : CStr) (fs : stat) (fd : Int) :
    ∀ e ∈ (setfile env dst fs fd).trace, ∀ m, e.chmod_mode = some m →
      m = setfile_mode env fs := by
  unfold setfile
  simp only []
  generalize (fd != -1) = fdval
  generalize S_ISLNK fs.st_mode = islink
  generalize setfile_want_chown env fs = wc
  generalize setfile_want_chmod env fs = wm
  generalize setfile_mode env fs = md
  cases fdval <;> cases islink <;> cases wc <;> cases wm <;>
    simp [Ev.chmod_mode]

theorem setfile_perm_after (env : Env) (dst : CStr) (fs : stat) (fd : Int) (cur : Nat) :
    perm_after cur (setfile env dst fs fd).trace =
      if setfile_want_chmod env fs = true ∧ env.chmod_ok = true then setfile_mode env fs
      else if setfile_want_chown env fs = true ∧ env.chown_errno = none then
        cur &&& NOT_SUID_SGID
      else cur := by
  unfold setfile perm_after
  simp only []
  generalize (fd != -1) = fdval
  generalize S_ISLNK fs.st_mode = islink
  generalize setfile_want_chown env fs = wc
  generalize setfile_want_chmod env fs = wm
  generalize setfile_mode env fs = md
  generalize env.chmod_ok = ok
  cases hch : env.chown_errno <;>
    cases fdval <;> cases islink <;> cases wc <;> cases wm <;> cases ok <;>
      simp [Ev.perm_after]

theorem setfile_chown_ids (env : Env) (dst : CStr) (fs : stat) (fd : Int) :
    ∀ e ∈ (setfile env dst fs fd).trace, ∀ ids, e.chown_ids = some ids →
      ids = (fs.st_uid, fs.st_gid) := by
  unfold setfile
  simp only []
  generalize (fd != -1) = fdval
  generalize S_ISLNK fs.st_mode = islink
  generalize setfile_want_chown env fs = wc
  generalize setfile_want_chmod env fs = wm
  cases fdval <;> cases islink <;> cases wc <;> cases wm <;>
    simp [Ev.chown_ids]

theorem setfile_rval (env : Env) (dst : CStr) (fs : stat) (fd : Int) :
    (setfile env dst fs fd).rval =
      if setfile_want_chmod env fs = true ∧ env.chmod_ok = false then 1
      else if setfile_want_chown env fs = true ∧
          (∃ errno, env.chown_errno = some errno ∧ errno ≠ EPERM) then 1
      else if env.utimes_ok = true then 0 else 1 := by
  unfold setfile
  simp only []
  generalize setfile_want_chown env fs = wc
  generalize setfile_want_chmod env fs = wm
  generalize env.chmod_ok = ok
  generalize env.utimes_ok = ut
  cases hch : env.chown_errno with
  | none => cases wc <;> cases wm <;> cases ok <;> cases ut <;> simp
  | some errno =>
    by_cases he : errno = EPERM <;>
      cases wc <;> cases wm <;> cases ok <;> cases ut <;> simp [he]

/-- The ownership and mode decisions of `setfile`.  With m0 the source
mode restricted to the bits 07777: a change of ownership is attempted iff
the destination could not be examined or its uid or gid differs from the
source; the mode to apply is m0, with setuid and setgid cleared when that
attempt failed; a failed attempt with an error other than `EPERM` makes
`setfile` report failure, and when nothing else fails it reports failure
only then; a change of mode is attempted iff the destination could not be
examined or the mode to apply differs from its current permission bits;
every change of ownership passes the uid and gid of the source; when the
destination was examined and the change of mode, if attempted, succeeded,
its final permission bits are the mode to apply if the change of mode was
attempted, else its former bits, without setuid and setgid if the ownership
was changed. -/
theorem setfile_decisions (env : Env) (dst : CStr) (fs : stat) (fd : Int) :
    ((∃ e ∈ (setfile env dst fs fd).trace, e.is_chown = true) ↔
      (env.stat_set = none ∨
        ∃ t, env.stat_set = some t ∧ (fs.st_uid ≠ t.st_uid ∨ fs.st_gid ≠ t.st_gid))) ∧
    (∀ e ∈ (setfile env dst fs fd).trace, ∀ m, e.chmod_mode = some m →
      m = if (∃ e ∈ (setfile env dst fs fd).trace, e.is_chown = true) ∧
            env.chown_errno ≠ none
          then (fs.st_mode &&& 0o7777) &&& 0o1777 else fs.st_mode &&& 0o7777) ∧
    ((∃ e ∈ (setfile env dst fs fd).trace, e.is_chown = true) →
      ∀ errno, env.chown_errno = some errno → errno ≠ EPERM →
        (setfile env dst fs fd).rval = 1) ∧
    (env.utimes_ok = true →
      ((∃ e ∈ (setfile env dst fs fd).trace, e.chmod_mode ≠ none) → env.chmod_ok = true) →
      ((setfile env dst fs fd).rval ≠ 0 ↔
        (∃ e ∈ (setfile env dst fs fd).trace, e.is_chown = true) ∧
          ∃ errno, env.chown_errno = some errno ∧ errno ≠ EPERM)) ∧
    ((∃ e ∈ (setfile env dst fs fd).trace, e.chmod_mode ≠ none) ↔
      (env.stat_set = none ∨
        ∃ t, env.stat_set = some t ∧
          (if (∃ e ∈ (setfile env dst fs fd).trace, e.is_chown = true) ∧
              env.chown_errno ≠ none
            then (fs.st_mode &&& 0o7777) &&& 0o1777 else fs.st_mode &&& 0o7777)
          ≠ t.st_mode &&& 0o7777)) ∧
    (∀ t, env.stat_set = some t →
      ((∃ e ∈ (setfile env dst fs fd).trace, e.chmod_mode ≠ none) → env.chmod_ok = true) →
      perm_after (t.st_mode &&& 0o7777) (setfile env dst fs fd).trace =
        if (∃ e ∈ (setfile env dst fs fd).trace, e.chmod_mode ≠ none) then
          if (∃ e ∈ (setfile env dst fs fd).trace, e.is_chown = true) ∧
              env.chown_errno ≠ none
            then (fs.st_mode &&& 0o7777) &&& 0o1777 else fs.st_mode &&& 0o7777
        else if (∃ e ∈ (setfile env dst fs fd).trace, e.is_chown = true) ∧
            env.chown_errno = none
          then (t.st_mode &&& 0o7777) &&& NOT_SUID_SGID
        else t.st_mode &&& 0o7777) ∧
    (∀ e ∈ (setfile env dst fs fd).trace, ∀ ids, e.chown_ids = some ids →
      ids = (fs.st_uid, fs.st_gid)) := by
  have hwc : setfile_want_chown env fs = true ↔
      (env.stat_set = none ∨
        ∃ t, env.stat_set = some t ∧ (fs.st_uid ≠ t.st_uid ∨ fs.st_gid ≠ t.st_gid)) := by
    unfold setfile_want_chown setfile_ts
    cases env.stat_set <;> simp
  have hmode : setfile_mode env fs =
      if (∃ e ∈ (setfile env dst fs fd).trace, e.is_chown = true) ∧ env.chown_errno ≠ none
      then (fs.st_mode &&& 0o7777) &&& 0o1777 else fs.st_mode &&& 0o7777 := by
    unfold setfile_mode
    rw [land_clear_suid_sgid, PERM_BITS_eq]
    by_cases h1 : setfile_want_chown env fs = true
    · have h2 := (setfile_chown_iff env dst fs fd).mpr h1
      cases hch : env.chown_errno <;> simp [h1, h2]
    · have h2 : ¬ ∃ e ∈ (setfile env dst fs fd).trace, e.is_chown = true :=
        fun h => h1 ((setfile_chown_iff env dst fs fd).mp h)
      simp [h1, h2]
  have hwm : setfile_want_chmod env fs = true ↔
      (env.stat_set = none ∨
        ∃ t, env.stat_set = some t ∧ setfile_mode env fs ≠ t.st_mode &&& 0o7777) := by
    unfold setfile_want_chmod setfile_ts
    cases env.stat_set <;> simp [PERM_BITS_eq]
  refine ⟨(setfile_chown_iff env dst fs fd).trans hwc, ?_, ?_, ?_, ?_, ?_,
    setfile_chown_ids env dst fs fd⟩
  · intro e he m hm
    rw [← hmode]
    exact setfile_chmod_mode env dst fs fd e he m hm
  · intro h errno herr hne
    rw [setfile_rval]
    have h1 := (setfile_chown_iff env dst fs fd).mp h
    have h2 : ∃ errno, env.chown_errno = some errno ∧ errno ≠ EPERM := ⟨errno, herr, hne⟩
    simp only [h1, h2, and_self, if_true]
    split_ifs <;> rfl
  · intro hut hcm
    rw [setfile_rval, setfile_chown_iff]
    have h1 : ¬ (setfile_want_chmod env fs = true ∧ env.chmod_ok = false) := by
      rintro ⟨h2, h3⟩
      have := hcm ((setfile_chmod_iff env dst fs fd).mpr h2)
      rw [this] at h3
      cases h3
    simp only [h1, if_false, hut, if_true]
    split_ifs with h4
    · simp [h4]
    · simp only [ne_eq, not_true_eq_false, false_iff]
      exact h4
  · rw [← hmode]
    exact (setfile_chmod_iff env dst fs fd).trans hwm
  · intro t ht hcm
    rw [← hmode, setfile_perm_after]
    have e1 := setfile_chmod_iff env dst fs fd
    have e2 := setfile_chown_iff env dst fs fd
    by_cases h2 : setfile_want_chmod env fs = true
    · have := hcm (e1.mpr h2)
      rw [if_pos ⟨h2, this⟩, if_pos (e1.mpr h2)]
    · rw [if_neg (fun h => h2 h.1), if_neg (fun h => h2 (e1.mp h))]
      by_cases h3 : setfile_want_chown env fs = true ∧ env.chown_errno = none
      · rw [if_pos h3, if_pos ⟨e2.mpr h3.1, h3.2⟩]
      · rw [if_neg h3, if_neg (fun h => h3 ⟨e2.mp h.1, h.2⟩)]

theorem setfile_decisions_eperm :
    perm_after (0o100600 &&& 0o7777) (setfile env_eperm "t".toList sample_suid 4).trace
      = 0o755 :=
  ((setfile_decisions env_eperm "t".toList sample_suid 4).2.2.2.2.2.1
    { sample_file with st_uid := 7, st_mode := 0o100600 } rfl (fun _ => rfl)).trans
    (by decide)

/-- C10: `setfile` for a setuid source (mode 04755, uid 0) whose destination
`t/f` exists with mode 04755 and another owner (uid 7), every call
succeeding: the case of `cp -p f t` by a privileged user.  The ownership is
changed, which clears setuid; line 777 compares the mode to apply with the
mode read before that change, finds them equal, and no `fchmod` is issued:
`setfile` reports success and the final permission bits are 0755, not
m0 = 04755.  Over a destination of mode 0600 the same source gets its
`fchmod` and ends with 04755. -/
theorem C10_setuid_lost_after_chown :
    sample_suid.st_mode &&& 0o7777 = 0o4755 ∧
    env_setuid_dst.stat_set =
      some { sample_file with st_uid := 7, st_mode := 0o104755 } ∧
    (setfile env_setuid_dst "t/f".toList sample_suid 4).trace =
      [Ev.utimes "t/f".toList, Ev.fstat, Ev.fchown 0 0 true] ∧
    (setfile env_setuid_dst "t/f".toList sample_suid 4).rval = 0 ∧
    perm_after (0o104755 &&& 0o7777)
      (setfile env_setuid_dst "t/f".toList sample_suid 4).trace = 0o755 ∧
    (setfile env_plain_dst "t/f".toList sample_suid 4).trace =
      [Ev.utimes "t/f".toList, Ev.fstat, Ev.fchown 0 0 true, Ev.fchmod 0o4755 true] ∧
    perm_after (0o100600 &&& 0o7777)
      (setfile env_plain_dst "t/f".toList sample_suid 4).trace = 0o4755 := by
  decide

theorem C5_skip_iff_reserved_basename_witness :
    (copy 4096 sample_env (sample_globals "t".toList op.FILE_TO_DIR)
        "a/.AppleDouble".toList sample_dir { base := 2, level := 1 }).g
      = sample_globals "t".toList op.FILE_TO_DIR :=
  ((C5_skip_iff_reserved_basename 4096 sample_env
      (sample_globals "t".toList op.FILE_TO_DIR) "a/.AppleDouble".toList sample_dir
      { base := 2, level := 1 }).2 (by decide)).1

/-! ### Where the code departs from the claims -/

theorem copy_eq_checked (PATH_MAX : Nat) (env : Env) (g : Globals) (path : CStr)
    (statp : stat) (ftw : FTW) (t : PATH_T)
    (h : copy_cursor PATH_MAX g path ftw = some t) :
    copy PATH_MAX env g path statp ftw =
      copy_checked PATH_MAX env { g with to_ := t } path statp := by
  unfold copy_cursor at h
  unfold copy
  by_cases h1 : (check_netatalk_dirs (copy_dir path)).isSome = true
  · simp [h1] at h
  · by_cases h2 : g.type ≠ op.FILE_TO_FILE
    · by_cases h3 : (copy_append PATH_MAX g.to_ g.type path ftw).too_long = true
      · simp [h1, h2, h3] at h
      · simp [h1, h2, h3] at h
        simp [h1, h2, h3, h]
    · simp [h1, h2] at h
      subst h
      simp [h1, h2]

/-- C1: the command `cp f f`.  The destination `f` exists and has the
device and inode of the source, a regular file; `copy` sets `badcp` and
`rval` and then still runs the content transfer, which opens the destination
with `O_WRONLY | O_TRUNC` and writes to it. -/
theorem C1_identical_file_is_truncated :
    (copy 4096 env_dst_file (sample_globals "f".toList op.FILE_TO_FILE) "f".toList
        sample_file { base := 0, level := 0 }).g.rval = 1 ∧
    (copy 4096 env_dst_file (sample_globals "f".toList op.FILE_TO_FILE) "f".toList
        sample_file { base := 0, level := 0 }).trace =
      [Ev.stat "f".toList, Ev.open_rdonly "f".toList,
        Ev.open_trunc "f".toList false 0, Ev.mmap 5, Ev.write 0 5 5, Ev.munmap 5,
        Ev.close_to, Ev.close_from] := by
  decide

/-- C2: the commands `cp -R a/dir noexist` and `cp -R a/dir existing` at
the entry `a/dir/foo` (level 1, `base` 6).  The local `base` of `copy` is 0
again on this call, so the whole source path is appended: the destinations
are `noexist/a/dir/foo` and `existing/a/dir/foo`. -/
theorem C2_nested_entry_keeps_root_path :
    (copy 4096 sample_env (sample_globals "noexist".toList op.DIR_TO_DNE)
        "a/dir/foo".toList sample_file { base := 6, level := 1 }).g.to_.p_path
      = "noexist/a/dir/foo".toList ∧
    (copy 4096 sample_env (sample_globals "existing".toList op.FILE_TO_DIR)
        "a/dir/foo".toList sample_file { base := 6, level := 1 }).g.to_.p_path
      = "existing/a/dir/foo".toList := by
  decide

/-- C6: the command `cp -n l t` for a symbolic link `l` whose destination
`t/l` exists.  With `nflag` set `copy` still unlinks the destination and
creates a new link in its place. -/
theorem C6_no_clobber_ignored_for_links :
    (copy 4096 env_dst_file
        { sample_globals "t".toList op.FILE_TO_DIR with nflag := true } "l".toList
        sample_link { base := 0, level := 0 }).trace =
      [Ev.stat "t/l".toList, Ev.readlink "l".toList, Ev.unlink "t/l".toList,
        Ev.symlink "x".toList "t/l".toList] ∧
    (copy 4096 env_dst_file
        { sample_globals "t".toList op.FILE_TO_DIR with nflag := true } "l".toList
        sample_link { base := 0, level := 0 }).g.rval = 0 := by
  decide

/-- C8: the command `cp -R d e .` run next to the directory `d`.  The
destination `./d` is `d` itself: `copy` sets the failure flags and answers
-1, which is not the skip action; the walk ends with -1 and `ad_cp` ends the
process with status 1.  Neither the entries of `d` nor the second source `e`
are processed. -/
theorem C8_identical_directory_ends_run :
    (copy 4096 env_dst_dir (sample_globals ".".toList op.FILE_TO_DIR) "d".toList
        sample_dir { base := 0, level := 0 }).out = .ret (-1) ∧
    (copy 4096 env_dst_dir (sample_globals ".".toList op.FILE_TO_DIR) "d".toList
        sample_dir { base := 0, level := 0 }).g.rval = 1 ∧
    (-1 : Int) ≠ FTW_SKIP_SUBTREE ∧
    (ad_cp 4096 sample_world (sample_globals [] op.FILE_TO_FILE)
        [("d".toList, some tree_d), ("e".toList, some tree_e)] ".".toList).out = .exit 1 ∧
    (ad_cp 4096 sample_world (sample_globals [] op.FILE_TO_FILE)
        [("d".toList, some tree_d), ("e".toList, some tree_e)] ".".toList).trace
      = [Ev.stat "./d".toList] := by
  decide

/-- C9, as stated, fails: the command `cp -R d f` for a directory `d` and
an existing regular file `f` does not return the continue action; `ERROR`
ends the process. -/
theorem C9_directory_over_file_is_fatal :
    (copy 4096 env_dst_file (sample_globals "f".toList op.FILE_TO_FILE) "d".toList
        sample_dir { base := 0, level := 0 }).out = .exit 1 ∧
    (copy 4096 env_dst_file (sample_globals "f".toList op.FILE_TO_FILE) "d".toList
        sample_dir { base := 0, level := 0 }).out ≠ .ret 0 := by
  decide

theorem S_ISDIR_iff (m : Nat) : S_ISDIR m = true ↔ m &&& S_IFMT = S_IFDIR := by
  simp [S_ISDIR]

/-- C9 (amended): let the destination of an entry exist.  If it is a
directory and the source is not, `copy` fails that entry only: it sets
`badcp` and `rval`, its only call is the `stat` of the destination, and it
answers 0 (continue).  If the source is a directory and the destination is
not, `copy` again makes no call but that `stat`, yet it does not continue:
it ends the process (`ERROR`, `ENOTDIR`) when recursion is on and the two are
distinct objects, and otherwise answers -1 with `badcp` and `rval` set. -/
theorem C9_incompatible_types (PATH_MAX : Nat) (env : Env) (g : Globals) (path : CStr)
    (statp : stat) (ftw : FTW) (t : PATH_T) (to_stat : stat)
    (hcur : copy_cursor PATH_MAX g path ftw = some t)
    (hstat : env.stat_to t.p_path = some to_stat) :
    (S_ISDIR statp.st_mode = false → S_ISDIR to_stat.st_mode = true →
      (copy PATH_MAX env g path statp ftw).out = .ret 0 ∧
      (copy PATH_MAX env g path statp ftw).g.badcp = 1 ∧
      (copy PATH_MAX env g path statp ftw).g.rval = 1 ∧
      (copy PATH_MAX env g path statp ftw).trace = [Ev.stat t.p_path]) ∧
    (S_ISDIR statp.st_mode = true → S_ISDIR to_stat.st_mode = false →
      (copy PATH_MAX env g path statp ftw).trace = [Ev.stat t.p_path] ∧
      (g.Rflag = true ∧
          ¬ (to_stat.st_dev = statp.st_dev ∧ to_stat.st_ino = statp.st_ino) →
        (copy PATH_MAX env g path statp ftw).out = .exit 1) ∧
      (g.Rflag = false ∨
          (to_stat.st_dev = statp.st_dev ∧ to_stat.st_ino = statp.st_ino) →
        (copy PATH_MAX env g path statp ftw).out = .ret (-1) ∧
        (copy PATH_MAX env g path statp ftw).g.badcp = 1 ∧
        (copy PATH_MAX env g path statp ftw).g.rval = 1)) := by
  rw [copy_eq_checked PATH_MAX env g path statp ftw t hcur]
  constructor
  · intro hs hd
    unfold copy_checked
    simp only [hstat, hs, hd]
    by_cases hsame : (to_stat.st_dev == statp.st_dev && to_stat.st_ino == statp.st_ino) = true
    · simp [hsame, failed]
    · simp [hsame, failed]
  · intro hs hd
    have hfmt : statp.st_mode &&& S_IFMT = S_IFDIR := (S_ISDIR_iff _).mp hs
    have hnl : ¬ (S_IFDIR = S_IFLNK) := by decide
    unfold copy_checked
    simp only [hstat, hs, hd]
    by_cases hsame : (to_stat.st_dev == statp.st_dev && to_stat.st_ino == statp.st_ino) = true
    · have hsame2 : to_stat.st_dev = statp.st_dev ∧ to_stat.st_ino = statp.st_ino := by
        simpa using hsame
      simp [hsame, hsame2, failed]
    · have hsame2 : ¬ (to_stat.st_dev = statp.st_dev ∧ to_stat.st_ino = statp.st_ino) := by
        simpa using hsame
      cases hR : g.Rflag <;>
        simp [hsame, hsame2, failed, copy_dispatch, hfmt, hnl, copy_directory, hR, hd]

theorem C9_incompatible_types_witness :
    (copy 4096 env_dst_dir (sample_globals "t".toList op.FILE_TO_DIR) "f".toList
        sample_file { base := 0, level := 0 }).out = .ret 0 ∧
    (copy 4096 env_dst_dir (sample_globals "t".toList op.FILE_TO_DIR) "f".toList
        sample_file { base := 0, level := 0 }).g.badcp = 1 ∧
    (copy 4096 env_dst_dir (sample_globals "t".toList op.FILE_TO_DIR) "f".toList
        sample_file { base := 0, level := 0 }).g.rval = 1 ∧
    (copy 4096 env_dst_dir (sample_globals "t".toList op.FILE_TO_DIR) "f".toList
        sample_file { base := 0, level := 0 }).trace = [Ev.stat "t/f".toList] :=
  (C9_incompatible_types 4096 env_dst_dir (sample_globals "t".toList op.FILE_TO_DIR)
    "f".toList sample_file { base := 0, level := 0 }
    { p_path := "t/f".toList, p_end := 3, target_end := 1 } sample_dir
    (by decide) rfl).1 (by decide) (by decide)

/-! ### A root entry refused by the length check -/

theorem deep_path_length (n : Nat) : (deep_path n).length = 2 * n + 1 := by
  induction n with
  | zero => rfl
  | succ n ih => simp [deep_path, ih]; omega

theorem deep_path_getLast? (n : Nat) : (deep_path n).getLast? = some 'd' := by
  induction n with
  | zero => rfl
  | succ n ih =>
    have hne : deep_path n ≠ [] := by
      intro h
      have := deep_path_length n
      rw [h] at this
      simp at this
    simp only [deep_path]
    cases hdp : deep_path n with
    | nil => exact absurd hdp hne
    | cons y ys =>
      rw [hdp] at ih
      rw [List.getLast?_cons_cons, List.getLast?_cons_cons]
      exact ih

theorem spec_strip_of_last (s : CStr) (c : Char) (h : s.getLast? = some c) (hc : c ≠ '/') :
    spec_strip s = s := by
  have hh : s.reverse.head? = some c := by simpa using h
  have hne : s ≠ [] := by
    intro h2; rw [h2] at h; simp at h
  have hd : s.reverse.dropWhile (fun c => c == '/') = s.reverse := by
    cases hr : s.reverse with
    | nil => simp
    | cons x xs =>
      rw [hr] at hh
      have : x = c := by simpa using hh
      rw [List.dropWhile_cons_of_neg]
      simpa [this] using hc
  unfold spec_strip
  simp [hd, hne]

theorem copy_append_refused_path (PATH_MAX : Nat) (t : PATH_T) (type : op) (path : CStr)
    (ftw : FTW) (h : (copy_append PATH_MAX t type path ftw).too_long = true) :
    (copy_append PATH_MAX t type path ftw).to_.p_path = t.p_path.take t.target_end ∨
    (copy_append PATH_MAX t type path ftw).to_.p_path =
      t.p_path.take t.target_end ++ ['/'] := by
  unfold copy_append at h ⊢
  simp only [] at h ⊢
  split_ifs at h ⊢ <;> simp

theorem long_target_refused (dp : CStr) (hlen : dp.length = 4095)
    (hlast : dp.getLast? = some 'd') :
    (copy 4096 sample_env (sample_globals dp op.FILE_TO_DIR) "b".toList
        sample_dir { base := 0, level := 0 }).g.to_.p_path ≠
      spec_strip (spec_join (sample_globals dp op.FILE_TO_DIR).to_.target
        ("b".toList.drop (spec_root_base op.FILE_TO_DIR "b".toList))) := by
  have hwf : (sample_globals dp op.FILE_TO_DIR).to_.wf := by
    simp [PATH_T.wf, sample_globals, hlen]
  have hbase : copy_base op.FILE_TO_DIR "b".toList { base := 0, level := 0 } = 0 := by
    decide
  have htarget : (sample_globals dp op.FILE_TO_DIR).to_.target = dp := by
    simp [PATH_T.target, sample_globals]
  have hte : (sample_globals dp op.FILE_TO_DIR).to_.target_end = 4095 := hlen
  have hlong : (copy_append 4096 (sample_globals dp op.FILE_TO_DIR).to_
      op.FILE_TO_DIR "b".toList { base := 0, level := 0 }).too_long = true := by
    rw [copy_append_too_long _ _ _ _ _ hwf, hbase, hte]
    have : ("b".toList.drop 0).length = 1 := by decide
    rw [this]
    omega
  have hcopy : (copy 4096 sample_env (sample_globals dp op.FILE_TO_DIR)
      "b".toList sample_dir { base := 0, level := 0 }).g.to_ =
      (copy_append 4096 (sample_globals dp op.FILE_TO_DIR).to_
        op.FILE_TO_DIR "b".toList { base := 0, level := 0 }).to_ := by
    have hname : (check_netatalk_dirs (copy_dir "b".toList)).isSome = false := by decide
    have hty : (sample_globals dp op.FILE_TO_DIR).type = op.FILE_TO_DIR := rfl
    unfold copy
    rw [hname, hty]
    simp only [Bool.false_eq_true, if_false, ne_eq, reduceCtorEq, not_false_eq_true, if_true,
      hlong, failed]
  have hroot : spec_root_base op.FILE_TO_DIR "b".toList = 0 := by decide
  rw [hcopy, htarget, hroot, List.drop_zero]
  have hright : (spec_strip (spec_join dp "b".toList)).getLast? = some 'b' := by
    have hj : (spec_join dp "b".toList).getLast? = some 'b' := by
      unfold spec_join
      split_ifs <;> simp
    rw [spec_strip_of_last _ 'b' hj (by decide)]
    exact hj
  have htake : (sample_globals dp op.FILE_TO_DIR).to_.p_path.take
      (sample_globals dp op.FILE_TO_DIR).to_.target_end = dp := by
    simp [sample_globals]
  intro heq
  rw [← heq] at hright
  rcases copy_append_refused_path _ _ _ _ _ hlong with h | h
  · rw [h, htake, hlast] at hright
    simp at hright
  · rw [h, htake] at hright
    simp at hright

/-- C3, as stated, fails for a root entry that the length check refuses:
the command `cp -R b d/d/.../d` with an existing target directory of 4095
characters and `PATH_MAX` 4096.  The destination is not set to the stripped
join of target and final component. -/
theorem C3_long_target_is_refused :
    (copy 4096 sample_env (sample_globals (deep_path 2047) op.FILE_TO_DIR) "b".toList
        sample_dir { base := 0, level := 0 }).g.to_.p_path ≠
      spec_strip (spec_join (sample_globals (deep_path 2047) op.FILE_TO_DIR).to_.target
        ("b".toList.drop (spec_root_base op.FILE_TO_DIR "b".toList))) :=
  long_target_refused (deep_path 2047) (deep_path_length 2047) (deep_path_getLast? 2047)

/-! ### Further facts about the entries the claims single out -/

theorem copy_base_nested (type : op) (path : CStr) (ftw : FTW) (h : 1 ≤ ftw.level) :
    copy_base type path ftw = 0 := by
  unfold copy_base
  have : ftw.level ≠ 0 := by omega
  simp [this]

/-- At depth 1 or more the local `base` of `copy` is 0: an entry that
reaches the path-building step and passes the length check gets the join of
the target and its whole source path as destination, trailing slashes
stripped. -/
theorem nested_destination (PATH_MAX : Nat) (env : Env) (g : Globals) (path : CStr)
    (statp : stat) (ftw : FTW)
    (hlevel : 1 ≤ ftw.level)
    (hty : g.type ≠ op.FILE_TO_FILE)
    (hname : check_netatalk_dirs (copy_dir path) = none)
    (hwf : g.to_.wf)
    (hfit : g.to_.target_end + spec_sep g.to_.target path + path.length < PATH_MAX) :
    (copy PATH_MAX env g path statp ftw).g.to_.p_path =
      spec_strip (spec_join g.to_.target path) := by
  have hb := copy_base_nested g.type path ftw hlevel
  have hlong := copy_append_too_long PATH_MAX g.to_ g.type path ftw hwf
  rw [hb, List.drop_zero] at hlong
  have hc2 : (copy_append PATH_MAX g.to_ g.type path ftw).too_long = false := by
    cases h : (copy_append PATH_MAX g.to_ g.type path ftw).too_long with
    | false => rfl
    | true => have := hlong.mp h; omega
  have hcur : copy_cursor PATH_MAX g path ftw =
      some (copy_append PATH_MAX g.to_ g.type path ftw).to_ := by
    simp [copy_cursor, hname, hty, hc2]
  have hpath := (copy_append_path PATH_MAX g.to_ g.type path ftw hwf hc2).1
  rw [hb, List.drop_zero] at hpath
  rw [copy_eq_checked PATH_MAX env g path statp ftw _ hcur, copy_checked_to]
  exact hpath

theorem nested_destination_witness :
    (copy 4096 sample_env (sample_globals "noexist".toList op.DIR_TO_DNE)
        "a/dir/foo".toList sample_file { base := 6, level := 1 }).g.to_.p_path =
      spec_strip (spec_join "noexist".toList "a/dir/foo".toList) :=
  nested_destination 4096 sample_env (sample_globals "noexist".toList op.DIR_TO_DNE)
    "a/dir/foo".toList sample_file { base := 6, level := 1 }
    (by decide) (by decide) (by decide) (by decide) (by decide)

/-- A directory whose destination is the same object: `copy` sets `badcp`
and `rval`, makes no call but the `stat`, and answers -1, whatever the
flags. -/
theorem identical_directory_answer (PATH_MAX : Nat) (env : Env) (g : Globals)
    (path : CStr) (statp : stat) (ftw : FTW) (t : PATH_T) (to_stat : stat)
    (hcur : copy_cursor PATH_MAX g path ftw = some t)
    (hstat : env.stat_to t.p_path = some to_stat)
    (hdev : to_stat.st_dev = statp.st_dev) (hino : to_stat.st_ino = statp.st_ino)
    (hdir : S_ISDIR statp.st_mode = true) :
    (copy PATH_MAX env g path statp ftw).out = .ret (-1) ∧
    (copy PATH_MAX env g path statp ftw).g.badcp = 1 ∧
    (copy PATH_MAX env g path statp ftw).g.rval = 1 ∧
    (copy PATH_MAX env g path statp ftw).trace = [Ev.stat t.p_path] := by
  rw [copy_eq_checked PATH_MAX env g path statp ftw t hcur]
  unfold copy_checked
  simp [hstat, hdev, hino, hdir, failed]

theorem identical_directory_answer_witness :
    (copy 4096 env_dst_dir (sample_globals ".".toList op.FILE_TO_DIR) "d".toList
        sample_dir { base := 0, level := 0 }).out = .ret (-1) :=
  (identical_directory_answer 4096 env_dst_dir (sample_globals ".".toList op.FILE_TO_DIR)
    "d".toList sample_dir { base := 0, level := 0 }
    { p_path := "./d".toList, p_end := 3, target_end := 1 } sample_dir
    (by decide) rfl rfl rfl (by decide)).1

/-- A symbolic link whose destination exists: when `readlink` succeeds,
`copy` unlinks the destination, whatever the overwrite flags (also under
`nflag`). -/
theorem link_unlinks_destination (PATH_MAX : Nat) (env : Env) (g : Globals)
    (path : CStr) (statp : stat) (ftw : FTW) (t : PATH_T) (to_stat : stat) (l : CStr)
    (hcur : copy_cursor PATH_MAX g path ftw = some t)
    (hstat : env.stat_to t.p_path = some to_stat)
    (hlnk : statp.st_mode &&& S_IFMT = S_IFLNK)
    (hnd : S_ISDIR to_stat.st_mode = false)
    (hrl : env.readlink path = some l) :
    Ev.unlink t.p_path ∈ (copy PATH_MAX env g path statp ftw).trace := by
  have hsd : S_ISDIR statp.st_mode = false := by
    have : ¬ (S_IFLNK = S_IFDIR) := by decide
    simp [S_ISDIR, hlnk, this]
  rw [copy_eq_checked PATH_MAX env g path statp ftw t hcur]
  unfold copy_checked
  simp only [hstat, hsd, hnd]
  by_cases hsame : (to_stat.st_dev == statp.st_dev && to_stat.st_ino == statp.st_ino) = true
  · simp only [hsame, Bool.and_false, Bool.false_eq_true, if_false, if_true, Bool.not_false,
      Bool.and_self]
    unfold copy_dispatch ftw_copy_link
    simp only [hlnk, if_true, failed, hrl, Option.isSome_some, Bool.true_and]
    split_ifs <;> simp
  · simp only [hsame, Bool.and_false, Bool.false_eq_true, if_false, Bool.not_false,
      Bool.and_self]
    unfold copy_dispatch ftw_copy_link
    simp only [hlnk, if_true, failed, hrl, Option.isSome_some, Bool.true_and]
    split_ifs <;> simp

theorem link_unlinks_destination_witness :
    Ev.unlink "t/l".toList ∈ (copy 4096 env_dst_file
        { sample_globals "t".toList op.FILE_TO_DIR with nflag := true } "l".toList
        sample_link { base := 0, level := 0 }).trace :=
  link_unlinks_destination 4096 env_dst_file
    { sample_globals "t".toList op.FILE_TO_DIR with nflag := true } "l".toList
    sample_link { base := 0, level := 0 }
    { p_path := "t/l".toList, p_end := 3, target_end := 1 } sample_file "x".toList
    (by decide) rfl (by decide) (by decide) rfl

theorem ftw_copy_file_opens (env : Env) (g : Globals) (spath : CStr) (sp : stat)
    (hsrc : env.open_src ≠ -1) (hn : g.nflag = false) (hi : g.iflag = false)
    (hl : g.lflag = false) :
    Ev.open_trunc g.to_.p_path g.fflag (if g.fflag then sp.st_mode &&& NOT_SUID_SGID else 0)
      ∈ (ftw_copy_file env g spath sp false).trace := by
  unfold ftw_copy_file
  simp only [hn, hi, hl]
  cases hf : g.fflag <;> by_cases ho : env.open_dst = -1 <;> simp [ho, hsrc]

theorem copy_regular_trace (env : Env) (g : Globals) (path : CStr) (statp : stat)
    (dne : Bool) (e : Ev) (h : e ∈ (ftw_copy_file env g path statp dne).trace) :
    e ∈ (copy_regular env g path statp dne).trace := by
  unfold copy_regular
  simp only []
  repeat' split
  all_goals simp [h]

/-- A regular file whose destination is the same object: unless `nflag`,
`iflag` or `lflag` is set (or the source cannot be opened), `copy` opens the
destination with `O_WRONLY | O_TRUNC` after it has set `badcp` and `rval`. -/
theorem identical_file_opened_for_writing (PATH_MAX : Nat) (env : Env) (g : Globals)
    (path : CStr) (statp : stat) (ftw : FTW) (t : PATH_T) (to_stat : stat)
    (hcur : copy_cursor PATH_MAX g path ftw = some t)
    (hstat : env.stat_to t.p_path = some to_stat)
    (hdev : to_stat.st_dev = statp.st_dev) (hino : to_stat.st_ino = statp.st_ino)
    (hreg : statp.st_mode &&& S_IFMT = S_IFREG)
    (hnd : S_ISDIR to_stat.st_mode = false)
    (hsrc : env.open_src ≠ -1) (hn : g.nflag = false) (hi : g.iflag = false)
    (hl : g.lflag = false) :
    Ev.open_trunc t.p_path g.fflag (if g.fflag then statp.st_mode &&& NOT_SUID_SGID else 0)
      ∈ (copy PATH_MAX env g path statp ftw).trace := by
  have hsd : S_ISDIR statp.st_mode = false := by
    have : ¬ (S_IFREG = S_IFDIR) := by decide
    simp [S_ISDIR, hreg, this]
  have h1 : ¬ (S_IFREG = S_IFLNK) := by decide
  have h2 : ¬ (S_IFREG = S_IFDIR) := by decide
  have h3 : ¬ (S_IFREG = S_IFBLK ∨ S_IFREG = S_IFCHR ∨ S_IFREG = S_IFSOCK ∨
      S_IFREG = S_IFIFO) := by decide
  rw [copy_eq_checked PATH_MAX env g path statp ftw t hcur]
  unfold copy_checked
  simp only [hstat, hsd, hnd, hdev, hino, beq_self_eq_true, Bool.and_self, if_true,
    Bool.and_false, Bool.false_eq_true, if_false, Bool.not_false]
  unfold copy_dispatch
  simp only [hreg, h1, h2, h3, if_false, Option.isNone_some]
  apply List.mem_cons_of_mem
  apply copy_regular_trace
  exact ftw_copy_file_opens env (failed { g with to_ := t }) path statp hsrc hn hi hl

theorem identical_file_opened_for_writing_witness :
    Ev.open_trunc "f".toList false 0 ∈
      (copy 4096 env_dst_file (sample_globals "f".toList op.FILE_TO_FILE) "f".toList
        sample_file { base := 0, level := 0 }).trace :=
  identical_file_opened_for_writing 4096 env_dst_file
    (sample_globals "f".toList op.FILE_TO_FILE) "f".toList sample_file
    { base := 0, level := 0 } { p_path := "f".toList, p_end := 1, target_end := 1 }
    sample_file (by decide) rfl rfl rfl (by decide) (by decide) (by decide) rfl rfl rfl

theorem spec_strip_ne_nil (s : CStr) (h : s ≠ []) : spec_strip s ≠ [] := by
  unfold spec_strip
  simp only []
  split_ifs with h1
  · simp
  · intro h2
    exact h1 ⟨h2, h⟩

/-- The cursor `ad_cp` sets up for the target argument holds a non-empty
target that fills the buffer: the hypothesis `wf` of the statements about
`copy` holds for it. -/
theorem ad_cp_target_wf (PATH_MAX : Nat) (target : CStr) (t : PATH_T) (slash : Bool)
    (h : ad_cp_target PATH_MAX target = some (t, slash)) :
    t.wf ∧ t.p_end = t.p_path.length ∧ t.target_end = t.p_end := by
  unfold ad_cp_target at h
  by_cases hl : target.length ≥ PATH_MAX
  · simp [hl] at h
  · simp only [hl, if_false, Option.some.injEq, Prod.mk.injEq] at h
    have hp : (if target = [] then ['.'] else target) ≠ [] := by
      split_ifs with h0
      · simp
      · exact h0
    generalize (if target = [] then ['.'] else target) = p at h hp
    obtain ⟨ht, _⟩ := h
    subst ht
    unfold PATH_T.wf
    split_ifs with hs
    · simp only [STRIP_TRAILING_SLASH, strip_loop_eq_spec]
      have := List.length_pos.mpr (spec_strip_ne_nil p hp)
      simp
      omega
    · have := List.length_pos.mpr hp
      simp
      omega

/-! ### Parent identifiers, the metadata gate and the source volume -/

/-- C11: the command `cp -R R t` on tracked volumes, with the nested
directories `R` (identifier 10), `R/A` (11) and `R/A/B` (12).  After `B` is
left `did` is 11 again, but after `A` is left too `did` is still 11, since
`upfunc` copies the one saved value `pdid`; the file `R/f`, processed next,
is recorded with parent 11 although `R`, which contains it, has 10. -/
theorem C11_parent_not_restored_two_levels_up :
    after_leaving_B.did = 11 ∧
    after_leaving_A.did = 11 ∧
    (copy 4096 (env_cnid 13) after_leaving_A "R/f".toList sample_file
        { base := 2, level := 1 }).g.to_.p_path = "t/R/f".toList ∧
    Ev.ad_setid 1 2 13 11 0 ∈
      (copy 4096 (env_cnid 13) after_leaving_A "R/f".toList sample_file
        { base := 2, level := 1 }).trace ∧
    Ev.ad_setid 1 2 13 10 0 ∉
      (copy 4096 (env_cnid 13) after_leaving_A "R/f".toList sample_file
        { base := 2, level := 1 }).trace := by
  decide

/-- C12: the command `cp -f f t` where `t/f` exists and neither volume
tracks metadata.  The gate `ad_enabled` is closed, yet `ftw_copy_file` calls
`vfs_deletefile` on the destination volume. -/
theorem C12_force_calls_vfs_deletefile :
    ad_enabled { sample_globals "t".toList op.FILE_TO_DIR with fflag := true } = false ∧
    (copy 4096 env_dst_file
        { sample_globals "t".toList op.FILE_TO_DIR with fflag := true } "f".toList
        { sample_file with st_ino := 9 } { base := 0, level := 0 }).trace =
      [Ev.stat "t/f".toList, Ev.open_rdonly "f".toList, Ev.unlink "t/f".toList,
        Ev.vfs_deletefile "t/f".toList, Ev.open_trunc "t/f".toList true 0o100644,
        Ev.mmap 5, Ev.write 0 5 5, Ev.munmap 5, Ev.close_to, Ev.close_from] := by
  decide

/-- C16: the command `cp s t` where only `t` lies on a tracked volume.
`ad_cp` loads `svolume` with `openvol(to.p_path, ...)`, so the source counts
as tracked, the gate opens and the metadata step runs for `s`. -/
theorem C16_source_volume_from_destination :
    openvol_only_t "s".toList = sample_volume ∧
    (ad_cp 4096 world_only_t (sample_globals [] op.FILE_TO_FILE)
        [("s".toList, some tree_s)] "t".toList).g.svolume = tracked_volume ∧
    Ev.vfs_copyfile "s".toList "t/s".toList ∈
      (ad_cp 4096 world_only_t (sample_globals [] op.FILE_TO_FILE)
        [("s".toList, some tree_s)] "t".toList).trace := by
  decide

/-! ### The transfer strategy -/

theorem write_loop_events (write : Nat → Int) (fuel k off wresid : Nat) :
    ∀ e ∈ (write_loop write fuel k off wresid).2.2.2, e.is_write = true := by
  induction fuel generalizing k off wresid with
  | zero => simp [write_loop]
  | succ fuel ih =>
    unfold write_loop
    simp only []
    split_ifs
    · simp [Ev.is_write]
    · simp [Ev.is_write]
    · intro e he
      rcases List.mem_cons.mp he with h | h
      · rw [h]; rfl
      · exact ih _ _ _ e h

theorem read_loop_events (write : Nat → Int) (reads : List Int) (k off : Nat) :
    ∀ e ∈ (read_loop write reads k off).2, e.is_write = true ∨ e.is_read = true := by
  induction reads generalizing k off with
  | nil => simp [read_loop, Ev.is_read]
  | cons rc rest ih =>
    unfold read_loop
    simp only []
    split_ifs
    · intro e he
      rcases List.mem_cons.mp he with h | h
      · rw [h]; right; rfl
      · left; exact write_loop_events _ _ _ _ _ e h
    · intro e he
      rcases List.mem_cons.mp he with h | h
      · rw [h]; right; rfl
      · rcases List.mem_append.mp h with h | h
        · left; exact write_loop_events _ _ _ _ _ e h
        · exact ih _ _ e h
    · simp [Ev.is_read]

theorem read_loop_reads (write : Nat → Int) (reads : List Int) (k off : Nat) :
    ∃ e ∈ (read_loop write reads k off).2, e.is_read = true := by
  cases reads with
  | nil => exact ⟨Ev.read 0, by simp [read_loop], rfl⟩
  | cons rc rest =>
    unfold read_loop
    simp only []
    split_ifs
    · exact ⟨Ev.read rc, by simp, rfl⟩
    · exact ⟨Ev.read rc, by simp, rfl⟩
    · exact ⟨Ev.read rc, by simp, rfl⟩

theorem setfile_events (env : Env) (dst : CStr) (fs : stat) (fd : Int) :
    ∀ e ∈ (setfile env dst fs fd).trace,
      e.is_mmap = false ∧ e.is_read = false ∧ e.is_write = false := by
  unfold setfile
  simp only []
  generalize (fd != -1) = fdval
  generalize S_ISLNK fs.st_mode = islink
  generalize setfile_want_chown env fs = wc
  generalize setfile_want_chmod env fs = wm
  cases fdval <;> cases islink <;> cases wc <;> cases wm <;>
    simp [Ev.is_mmap, Ev.is_read, Ev.is_write]

/-- The size test of lines 618-619. -/
theorem small_iff (sp : stat) :
    (S_ISREG sp.st_mode && decide (sp.st_size > 0) &&
      decide (sp.st_size ≤ 8 * 1024 * 1024)) = true ↔
    (S_ISREG sp.st_mode = true ∧ 0 < sp.st_size ∧ sp.st_size ≤ 8388608) := by
  simp [and_assoc]

theorem transfer_mapped (env : Env) (g : Globals) (spath : CStr) (sp : stat)
    (to_fd : Int) (hl : g.lflag = false)
    (hc : (S_ISREG sp.st_mode && decide (sp.st_size > 0) &&
      decide (sp.st_size ≤ 8 * 1024 * 1024)) = true) (hm : env.mmap_ok = true) :
    (ftw_copy_file_transfer env g spath sp to_fd).trace =
      [Ev.mmap sp.st_size.toNat] ++
        (write_loop env.write (sp.st_size.toNat + 1) 0 0 sp.st_size.toNat).2.2.2 ++
        [Ev.munmap sp.st_size.toNat] ++
        ((if g.pflag then (setfile env g.to_.p_path sp to_fd).trace else []) ++
          [Ev.close_to, Ev.close_from]) := by
  unfold ftw_copy_file_transfer
  simp only [hl, hc, hm]
  cases g.pflag <;> simp

theorem transfer_buffered (env : Env) (g : Globals) (spath : CStr) (sp : stat)
    (to_fd : Int) (hl : g.lflag = false)
    (hc : ¬ ((S_ISREG sp.st_mode && decide (sp.st_size > 0) &&
      decide (sp.st_size ≤ 8 * 1024 * 1024)) = true ∧ env.mmap_ok = true))
    (hb : g.bufsize ≠ none ∨ env.malloc_ok = true) :
    (ftw_copy_file_transfer env g spath sp to_fd).trace =
      (if (S_ISREG sp.st_mode && decide (sp.st_size > 0) &&
          decide (sp.st_size ≤ 8 * 1024 * 1024)) = true
        then [Ev.mmap sp.st_size.toNat] else []) ++
        (read_loop env.write env.reads 0 0).2 ++
        ((if g.pflag then (setfile env g.to_.p_path sp to_fd).trace else []) ++
          [Ev.close_to, Ev.close_from]) := by
  have hc2 : (S_ISREG sp.st_mode && decide (sp.st_size > 0) &&
      decide (sp.st_size ≤ 8 * 1024 * 1024) && env.mmap_ok) = false :=
    Bool.eq_false_iff.mpr (fun h => hc (Bool.and_eq_true_iff.mp h))
  unfold ftw_copy_file_transfer
  simp only [hl, hc2]
  cases hbs : g.bufsize with
  | some b => cases g.pflag <;> simp
  | none =>
    have hmal : env.malloc_ok = true := by
      rcases hb with h | h
      · exact absurd hbs h
      · exact h
    cases g.pflag <;> simp [hmal]

theorem transfer_no_buffer (env : Env) (g : Globals) (spath : CStr) (sp : stat)
    (to_fd : Int) (hl : g.lflag = false)
    (hc : ¬ ((S_ISREG sp.st_mode && decide (sp.st_size > 0) &&
      decide (sp.st_size ≤ 8 * 1024 * 1024)) = true ∧ env.mmap_ok = true))
    (hbs : g.bufsize = none) (hmal : env.malloc_ok = false) :
    (ftw_copy_file_transfer env g spath sp to_fd).out = .exit 1 ∧
    (ftw_copy_file_transfer env g spath sp to_fd).trace =
      (if (S_ISREG sp.st_mode && decide (sp.st_size > 0) &&
          decide (sp.st_size ≤ 8 * 1024 * 1024)) = true
        then [Ev.mmap sp.st_size.toNat] else []) := by
  have hc2 : (S_ISREG sp.st_mode && decide (sp.st_size > 0) &&
      decide (sp.st_size ≤ 8 * 1024 * 1024) && env.mmap_ok) = false :=
    Bool.eq_false_iff.mpr (fun h => hc (Bool.and_eq_true_iff.mp h))
  unfold ftw_copy_file_transfer
  simp only [hl, hc2, hbs]
  simp [hmal]

theorem is_write_only (e : Ev) (h : e.is_write = true) :
    e.is_read = false ∧ e.is_mmap = false := by
  cases e <;> simp_all [Ev.is_write, Ev.is_read, Ev.is_mmap]

theorem is_read_only (e : Ev) (h : e.is_read = true) : e.is_mmap = false := by
  cases e <;> simp_all [Ev.is_read, Ev.is_mmap]

theorem any_false_of_forall (p : Ev → Bool) (l : List Ev) (h : ∀ e ∈ l, p e = false) :
    l.any p = false := by
  rw [Bool.eq_false_iff]
  intro hh
  obtain ⟨e, he, hp⟩ := List.any_eq_true.mp hh
  rw [h e he] at hp
  cases hp

theorem write_loop_any (write : Nat → Int) (fuel k off wresid : Nat) :
    (write_loop write fuel k off wresid).2.2.2.any Ev.is_read = false ∧
    (write_loop write fuel k off wresid).2.2.2.any Ev.is_mmap = false :=
  ⟨any_false_of_forall _ _ (fun e he => (is_write_only e (write_loop_events _ _ _ _ _ e he)).1),
   any_false_of_forall _ _ (fun e he => (is_write_only e (write_loop_events _ _ _ _ _ e he)).2)⟩

theorem read_loop_any (write : Nat → Int) (reads : List Int) (k off : Nat) :
    (read_loop write reads k off).2.any Ev.is_read = true ∧
    (read_loop write reads k off).2.any Ev.is_mmap = false := by
  constructor
  · exact List.any_eq_true.mpr (read_loop_reads write reads k off)
  · apply any_false_of_forall
    intro e he
    rcases read_loop_events write reads k off e he with h | h
    · exact (is_write_only e h).2
    · exact is_read_only e h

theorem transfer_tail_any (env : Env) (g : Globals) (sp : stat) (to_fd : Int) :
    ((if g.pflag then (setfile env g.to_.p_path sp to_fd).trace else []) ++
      [Ev.close_to, Ev.close_from]).any Ev.is_read = false ∧
    ((if g.pflag then (setfile env g.to_.p_path sp to_fd).trace else []) ++
      [Ev.close_to, Ev.close_from]).any Ev.is_mmap = false := by
  have h1 := any_false_of_forall Ev.is_read _
    (fun e he => (setfile_events env g.to_.p_path sp to_fd e he).2.1)
  have h2 := any_false_of_forall Ev.is_mmap _
    (fun e he => (setfile_events env g.to_.p_path sp to_fd e he).1)
  cases g.pflag <;> simp [List.any_append, h1, h2, Ev.is_read, Ev.is_mmap]

/-- The transfer of `ftw_copy_file` (lines 609-680) when not hard-linking:
it attempts the memory-mapped copy iff the source is a regular file with
0 < size <= 8388608; when the attempt succeeds no `read` is issued and the
calls are the mapping, the writes over the mapped region and the unmapping;
otherwise the buffered loop runs (its `read` calls appear), unless its buffer
cannot be allocated, which ends the process. -/
theorem transfer_strategy_by_size (env : Env) (g : Globals) (spath : CStr) (sp : stat)
    (to_fd : Int) (hl : g.lflag = false) :
    ((∃ e ∈ (ftw_copy_file_transfer env g spath sp to_fd).trace, e.is_mmap = true) ↔
      (S_ISREG sp.st_mode = true ∧ 0 < sp.st_size ∧ sp.st_size ≤ 8388608)) ∧
    (S_ISREG sp.st_mode = true ∧ 0 < sp.st_size ∧ sp.st_size ≤ 8388608 →
      Ev.mmap sp.st_size.toNat ∈ (ftw_copy_file_transfer env g spath sp to_fd).trace) ∧
    ((∃ e ∈ (ftw_copy_file_transfer env g spath sp to_fd).trace, e.is_read = true) ↔
      (¬ ((S_ISREG sp.st_mode = true ∧ 0 < sp.st_size ∧ sp.st_size ≤ 8388608) ∧
          env.mmap_ok = true) ∧
        (g.bufsize ≠ none ∨ env.malloc_ok = true))) ∧
    ((S_ISREG sp.st_mode = true ∧ 0 < sp.st_size ∧ sp.st_size ≤ 8388608) ∧
        env.mmap_ok = true →
      ∃ rest, (ftw_copy_file_transfer env g spath sp to_fd).trace =
        [Ev.mmap sp.st_size.toNat] ++
          (write_loop env.write (sp.st_size.toNat + 1) 0 0 sp.st_size.toNat).2.2.2 ++
          [Ev.munmap sp.st_size.toNat] ++ rest) ∧
    (¬ ((S_ISREG sp.st_mode = true ∧ 0 < sp.st_size ∧ sp.st_size ≤ 8388608) ∧
          env.mmap_ok = true) →
      g.bufsize = none → env.malloc_ok = false →
      (ftw_copy_file_transfer env g spath sp to_fd).out = .exit 1) := by
  have hwl := write_loop_any env.write (sp.st_size.toNat + 1) 0 0 sp.st_size.toNat
  have hrl := read_loop_any env.write env.reads 0 0
  have htl := transfer_tail_any env g sp to_fd
  rw [← small_iff]
  simp only [← List.any_eq_true]
  by_cases hmap : (S_ISREG sp.st_mode && decide (sp.st_size > 0) &&
      decide (sp.st_size ≤ 8 * 1024 * 1024)) = true ∧ env.mmap_ok = true
  · have htr := transfer_mapped env g spath sp to_fd hl hmap.1 hmap.2
    refine ⟨?_, ?_, ?_, ?_, ?_⟩
    · refine iff_of_true ?_ hmap.1
      rw [htr]
      rfl
    · intro _; rw [htr]; simp
    · refine iff_of_false ?_ (fun h => h.1 hmap)
      rw [htr, List.any_append, List.any_append, List.any_append, hwl.1, htl.1]
      simp [Ev.is_read]
    · intro _
      exact ⟨_, htr⟩
    · intro h; exact absurd hmap h
  · by_cases hb : g.bufsize ≠ none ∨ env.malloc_ok = true
    · have htr := transfer_buffered env g spath sp to_fd hl hmap hb
      refine ⟨?_, ?_, ?_, ?_, ?_⟩
      · rw [htr]
        by_cases hc : (S_ISREG sp.st_mode && decide (sp.st_size > 0) &&
            decide (sp.st_size ≤ 8 * 1024 * 1024)) = true
        · refine iff_of_true ?_ hc
          rw [if_pos hc, List.any_append, List.any_append, hrl.2, htl.2]
          rfl
        · refine iff_of_false ?_ hc
          rw [if_neg hc, List.any_append, List.any_append, hrl.2, htl.2]
          simp
      · intro hc
        rw [htr, if_pos hc]
        simp
      · refine iff_of_true ?_ ⟨hmap, hb⟩
        rw [htr, List.any_append, List.any_append, hrl.1]
        simp
      · intro h; exact absurd h hmap
      · intro _ hbs hmal
        exact (transfer_no_buffer env g spath sp to_fd hl hmap hbs hmal).1
    · have hbs : g.bufsize = none := by
        by_contra h; exact hb (Or.inl h)
      have hmal : env.malloc_ok = false := by
        cases h : env.malloc_ok
        · rfl
        · exact absurd (Or.inr h) hb
      have htr := (transfer_no_buffer env g spath sp to_fd hl hmap hbs hmal).2
      refine ⟨?_, ?_, ?_, ?_, ?_⟩
      · rw [htr]
        by_cases hc : (S_ISREG sp.st_mode && decide (sp.st_size > 0) &&
            decide (sp.st_size ≤ 8 * 1024 * 1024)) = true
        · refine iff_of_true ?_ hc
          rw [if_pos hc]
          rfl
        · refine iff_of_false ?_ hc
          rw [if_neg hc]
          simp
      · intro hc
        rw [htr, if_pos hc]
        simp
      · refine iff_of_false ?_ (fun h => hb h.2)
        rw [htr]
        split_ifs
        · simp [Ev.is_read]
        · simp
      · intro h; exact absurd h hmap
      · intro _ _ _
        exact (transfer_no_buffer env g spath sp to_fd hl hmap hbs hmal).1

/-! ### The write loops -/

theorem appended_append {α : Type} (src : List α) (a b : List Ev) :
    appended src (a ++ b) = appended src a ++ appended src b := by
  induction a with
  | nil => rfl
  | cons e rest ih => simp [appended, ih]

theorem write_loop_fuel_any (write : Nat → Int) (fuel1 fuel2 k off wresid : Nat)
    (h1 : wresid + 1 ≤ fuel1) (h2 : wresid + 1 ≤ fuel2) :
    write_loop write fuel1 k off wresid = write_loop write fuel2 k off wresid := by
  induction fuel1 generalizing fuel2 k off wresid with
  | zero => omega
  | succ fuel1 ih =>
    cases fuel2 with
    | zero => omega
    | succ fuel2 =>
      unfold write_loop
      simp only []
      split_ifs with h3 h4
      · rfl
      · rfl
      · have hc : 0 < write k := by omega
        have hlt : write k < (wresid : Int) := by omega
        rw [ih fuel2 _ _ _ (by omega) (by omega)]

/-- Termination of the inner loop: `wresid + 1` iterations are enough, more
fuel gives the same result. -/
theorem write_loop_fuel (write : Nat → Int) (fuel k off wresid : Nat)
    (h : wresid + 1 ≤ fuel) :
    write_loop write fuel k off wresid = write_loop write (wresid + 1) k off wresid :=
  write_loop_fuel_any write fuel (wresid + 1) k off wresid h (le_refl _)

/-- The inner loop under the model of `write`: the bytes appended are the
first `m` bytes of the extent for some `m <= wresid`; the test after the
loop (`wcount != wresid`) passes iff `m = wresid`, and fails iff some call
returned a value `<= 0`. -/
theorem write_loop_spec {α : Type} (src : List α) (write : Nat → Int)
    (fuel k off wresid : Nat) (hf : wresid + 1 ≤ fuel) (hw : 1 ≤ wresid)
    (hm : ∀ e ∈ (write_loop write fuel k off wresid).2.2.2, e.write_model) :
    ∃ m, m ≤ wresid ∧
      appended src (write_loop write fuel k off wresid).2.2.2 = (src.drop off).take m ∧
      ((write_loop write fuel k off wresid).1 =
          ((write_loop write fuel k off wresid).2.1 : Int) ↔ m = wresid) ∧
      ((write_loop write fuel k off wresid).1 ≠
          ((write_loop write fuel k off wresid).2.1 : Int) ↔
        ∃ e ∈ (write_loop write fuel k off wresid).2.2.2, e.write_failed) := by
  induction fuel generalizing k off wresid with
  | zero => omega
  | succ fuel ih =>
    unfold write_loop at hm ⊢
    simp only [] at hm ⊢
    by_cases h1 : write k ≤ 0
    · simp only [h1, if_true] at hm ⊢
      refine ⟨0, by omega, by simp [appended, Ev.appended, h1], ?_, ?_⟩
      · constructor
        · intro h; omega
        · intro h; omega
      · refine iff_of_true (by omega) ⟨_, List.mem_singleton.mpr rfl, h1⟩
    · by_cases h2 : write k ≥ (wresid : Int)
      · simp only [h1, h2, if_true, if_false] at hm ⊢
        have hle : write k ≤ (wresid : Int) := hm _ (List.mem_singleton.mpr rfl)
        have heq : write k = (wresid : Int) := by omega
        refine ⟨wresid, le_refl _, ?_, ?_, ?_⟩
        · have : (write k).toNat = wresid := by omega
          simp [appended, Ev.appended, this]
          intro h; omega
        · exact iff_of_true heq rfl
        · refine iff_of_false (fun h => h heq) ?_
          rintro ⟨e, he, hfail⟩
          rw [List.mem_singleton.mp he] at hfail
          exact h1 hfail
      · simp only [h1, h2, if_false] at hm ⊢
        have hc : 0 < write k := by omega
        have hlt : write k < (wresid : Int) := by omega
        obtain ⟨m, hm1, hm2, hm3, hm4⟩ := ih (k + 1) (off + (write k).toNat)
          (wresid - (write k).toNat) (by omega) (by omega)
          (fun e he => hm e (List.mem_cons_of_mem _ he))
        refine ⟨(write k).toNat + m, by omega, ?_, ?_, ?_⟩
        · simp only [appended, Ev.appended, hc, if_true, gt_iff_lt]
          rw [hm2, List.take_add, List.drop_drop]
        · rw [hm3]
          omega
        · rw [hm4]
          constructor
          · rintro ⟨e, he, hfail⟩
            exact ⟨e, List.mem_cons_of_mem _ he, hfail⟩
          · rintro ⟨e, he, hfail⟩
            rcases List.mem_cons.mp he with h | h
            · rw [h] at hfail
              exact absurd hfail h1
            · exact ⟨e, h, hfail⟩

theorem write_not_read_failed (e : Ev) (h : e.is_write = true) : ¬ e.read_failed := by
  cases e <;> simp_all [Ev.is_write, Ev.read_failed]

/-- The buffered loop under the model of `write`: it sets `rval` iff some
`write` returned a value `<= 0` or some `read` failed; and when the `read`
calls deliver the content of the source from offset `off` to its end, it
leaves `rval` alone iff the bytes appended are exactly that content. -/
theorem read_loop_spec {α : Type} (src : List α) (write : Nat → Int) (reads : List Int)
    (k off : Nat)
    (hm : ∀ e ∈ (read_loop write reads k off).2, e.write_model) :
    ((read_loop write reads k off).1 = true ↔
      (∃ e ∈ (read_loop write reads k off).2, e.write_failed) ∨
      (∃ e ∈ (read_loop write reads k off).2, e.read_failed)) ∧
    ((∀ x ∈ reads, 0 < x) → src.length = off + (reads.map Int.toNat).sum →
      ((read_loop write reads k off).1 = false ↔
        appended src (read_loop write reads k off).2 = src.drop off)) := by
  induction reads generalizing k off with
  | nil =>
    constructor
    · simp [read_loop, Ev.write_failed, Ev.read_failed]
    · intro _ hlen
      have : src.drop off = [] := by
        apply List.drop_eq_nil_of_le
        simp at hlen
        omega
      simp [read_loop, appended, Ev.appended, this]
  | cons rc rest ih =>
    unfold read_loop at hm ⊢
    simp only [] at hm ⊢
    by_cases hrc : rc > 0
    · simp only [hrc, if_true] at hm ⊢
      have hmw : ∀ e ∈ (write_loop write (rc.toNat + 1) k off rc.toNat).2.2.2,
          e.write_model := by
        intro e he
        by_cases hfail : (write_loop write (rc.toNat + 1) k off rc.toNat).1 ≠
            ((write_loop write (rc.toNat + 1) k off rc.toNat).2.1 : Int)
        · rw [if_pos hfail] at hm
          exact hm e (List.mem_cons_of_mem _ he)
        · rw [if_neg hfail] at hm
          exact hm e (List.mem_cons_of_mem _ (List.mem_append_left _ he))
      obtain ⟨m, hm1, hm2, hm3, hm4⟩ := write_loop_spec src write (rc.toNat + 1) k off
        rc.toNat (le_refl _) (by omega) hmw
      have hwev := write_loop_events write (rc.toNat + 1) k off rc.toNat
      by_cases hfail : (write_loop write (rc.toNat + 1) k off rc.toNat).1 ≠
          ((write_loop write (rc.toNat + 1) k off rc.toNat).2.1 : Int)
      · rw [if_pos hfail] at hm
        rw [if_pos hfail]
        obtain ⟨e, he, hef⟩ := hm4.mp hfail
        constructor
        · exact iff_of_true rfl (Or.inl ⟨e, List.mem_cons_of_mem _ he, hef⟩)
        · intro _ hlen
          refine iff_of_false (by simp) ?_
          have hlt : m < rc.toNat := by
            have : m ≠ rc.toNat := fun h => hfail (hm3.mpr h)
            omega
          intro heq
          have h1 := congrArg List.length heq
          simp only [appended, Ev.appended, List.nil_append, hm2, List.length_take,
            List.length_drop, List.map_cons, List.sum_cons] at h1 hlen
          omega
      · rw [if_neg hfail] at hm
        rw [if_neg hfail]
        have hsucc : (write_loop write (rc.toNat + 1) k off rc.toNat).1 =
            ((write_loop write (rc.toNat + 1) k off rc.toNat).2.1 : Int) := by
          by_contra h; exact hfail h
        have hmeq : m = rc.toNat := hm3.mp hsucc
        have hnofail : ¬ ∃ e ∈ (write_loop write (rc.toNat + 1) k off rc.toNat).2.2.2,
            e.write_failed := fun h => hm4.mpr h hsucc
        have hih := ih (write_loop write (rc.toNat + 1) k off rc.toNat).2.2.1
          (off + rc.toNat)
          (fun e he => hm e (List.mem_cons_of_mem _ (List.mem_append_right _ he)))
        constructor
        · rw [hih.1]
          constructor
          · rintro (⟨e, he, hf⟩ | ⟨e, he, hf⟩)
            · exact Or.inl ⟨e, List.mem_cons_of_mem _ (List.mem_append_right _ he), hf⟩
            · exact Or.inr ⟨e, List.mem_cons_of_mem _ (List.mem_append_right _ he), hf⟩
          · rintro (⟨e, he, hf⟩ | ⟨e, he, hf⟩)
            · rcases List.mem_cons.mp he with h | h
              · rw [h] at hf; exact absurd hf (by simp [Ev.write_failed])
              · rcases List.mem_append.mp h with h | h
                · exact absurd ⟨e, h, hf⟩ hnofail
                · exact Or.inl ⟨e, h, hf⟩
            · rcases List.mem_cons.mp he with h | h
              · rw [h] at hf
                have : rc < 0 := hf
                omega
              · rcases List.mem_append.mp h with h | h
                · exact absurd hf (write_not_read_failed e (hwev e h))
                · exact Or.inr ⟨e, h, hf⟩
        · intro hpos hlen
          have hlen2 : src.length = off + rc.toNat + (rest.map Int.toNat).sum := by
            simp only [List.map_cons, List.sum_cons] at hlen
            omega
          rw [(hih.2 (fun x hx => hpos x (List.mem_cons_of_mem _ hx)) hlen2)]
          have hsplit : src.drop off =
              (src.drop off).take rc.toNat ++ src.drop (off + rc.toNat) := by
            rw [← List.drop_drop, List.take_append_drop]
          simp only [appended, Ev.appended, List.nil_append, appended_append, hm2, hmeq]
          constructor
          · intro h
            rw [h]
            exact hsplit.symm
          · intro h
            exact List.append_cancel_left (h.trans hsplit)
    · simp only [hrc, if_false] at hm ⊢
      constructor
      · constructor
        · intro h
          have : rc < 0 := by simpa using h
          exact Or.inr ⟨Ev.read rc, List.mem_singleton.mpr rfl, this⟩
        · rintro (⟨e, he, hf⟩ | ⟨e, he, hf⟩)
          · rw [List.mem_singleton.mp he] at hf
            exact absurd hf (by simp [Ev.write_failed])
          · rw [List.mem_singleton.mp he] at hf
            have : rc < 0 := hf
            simpa using this
      · intro hpos _
        exact absurd (hpos rc (List.mem_cons_self _ _)) hrc

/-- How the loops decide the value `ftw_copy_file` reports: with both files
open, no hard link, no attribute step and `munmap` and `close` succeeding,
the mapped transfer returns 1 iff the test `wcount != wresid` after its loop
holds, and the buffered transfer returns 1 iff its loop set `rval`. -/
theorem transfer_reports_loops (env : Env) (g : Globals) (spath : CStr) (sp : stat)
    (to_fd : Int) (hl : g.lflag = false) (hp : g.pflag = false)
    (hcl : env.close_ok = true) :
    ((S_ISREG sp.st_mode = true ∧ 0 < sp.st_size ∧ sp.st_size ≤ 8388608) →
      env.mmap_ok = true → env.munmap_ok = true →
      (ftw_copy_file_transfer env g spath sp to_fd).out =
        .ret (if (write_loop env.write (sp.st_size.toNat + 1) 0 0 sp.st_size.toNat).1 ≠
            ((write_loop env.write (sp.st_size.toNat + 1) 0 0 sp.st_size.toNat).2.1 : Int)
          then 1 else 0)) ∧
    (¬ ((S_ISREG sp.st_mode = true ∧ 0 < sp.st_size ∧ sp.st_size ≤ 8388608) ∧
          env.mmap_ok = true) →
      (g.bufsize ≠ none ∨ env.malloc_ok = true) →
      (ftw_copy_file_transfer env g spath sp to_fd).out =
        .ret (if (read_loop env.write env.reads 0 0).1 = true then 1 else 0)) := by
  rw [← small_iff]
  constructor
  · intro hc hm hu
    have hc2 : (S_ISREG sp.st_mode && decide (sp.st_size > 0) &&
        decide (sp.st_size ≤ 8 * 1024 * 1024) && env.mmap_ok) = true := by
      rw [hc, hm]; rfl
    unfold ftw_copy_file_transfer
    simp only [hl, hp, hc2, hu, hcl]
    simp
  · intro hc hb
    have hc2 : (S_ISREG sp.st_mode && decide (sp.st_size > 0) &&
        decide (sp.st_size ≤ 8 * 1024 * 1024) && env.mmap_ok) = false :=
      Bool.eq_false_iff.mpr (fun h => hc (Bool.and_eq_true_iff.mp h))
    unfold ftw_copy_file_transfer
    simp only [hl, hp, hc2, hcl]
    cases hbs : g.bufsize with
    | some b => simp
    | none =>
      have hmal : env.malloc_ok = true := by
        rcases hb with h | h
        · exact absurd hbs h
        · exact h
      simp [hmal]

theorem spec_strip_no_trailing (s : CStr) (h : (spec_strip s).getLast? = some '/') :
    spec_strip s = ['/'] := by
  unfold spec_strip at h ⊢
  simp only [] at h ⊢
  split_ifs at h ⊢ with h1
  · rfl
  · exfalso
    rw [List.getLast?_reverse] at h
    have := List.head?_dropWhile_not (fun c => c == '/') s.reverse
    rw [h] at this
    simp at this

theorem spec_strip_snoc_slash (a : CStr) (h : a ≠ []) :
    spec_strip (a ++ ['/']) = spec_strip a := by
  unfold spec_strip
  simp [List.dropWhile, h]

theorem spec_strip_prefix (t x : CStr) (hne : t ≠ [])
    (ht : t.getLast? = some '/' → t = ['/']) : t <+: spec_strip (t ++ x) := by
  induction x using List.reverseRecOn with
  | nil =>
    rw [List.append_nil]
    by_cases h : t.getLast? = some '/'
    · rw [ht h]
      have : spec_strip ['/'] = ['/'] := by decide
      rw [this]
    · obtain ⟨c, hc⟩ : ∃ c, t.getLast? = some c := by
        cases hl : t.getLast? with
        | none => exact absurd (List.getLast?_eq_none_iff.mp hl) hne
        | some c => exact ⟨c, rfl⟩
      have hcne : c ≠ '/' := fun hh => h (hh ▸ hc)
      rw [spec_strip_of_last t c hc hcne]
  | append_singleton init c ih =>
    by_cases hc : c = '/'
    · subst hc
      rw [← List.append_assoc, spec_strip_snoc_slash _ (by simp [hne])]
      exact ih
    · rw [← List.append_assoc,
        spec_strip_of_last (t ++ init ++ [c]) c (by simp) hc, List.append_assoc]
      exact List.prefix_append _ _

theorem spec_join_eq_append (t s : CStr) : ∃ x, spec_join t s = t ++ x := by
  unfold spec_join
  split_ifs
  · exact ⟨s, rfl⟩
  · exact ⟨'/' :: s, rfl⟩

theorem spec_sep_le_one (t s : CStr) : spec_sep t s = 0 ∨ spec_sep t s = 1 := by
  unfold spec_sep
  split_ifs
  · left; rfl
  · right; rfl

theorem copy_to_append (PATH_MAX : Nat) (env : Env) (g : Globals) (path : CStr)
    (statp : stat) (ftw : FTW)
    (hname : (check_netatalk_dirs (copy_dir path)).isSome = false)
    (hty : g.type ≠ op.FILE_TO_FILE) :
    (copy PATH_MAX env g path statp ftw).g.to_ =
      (copy_append PATH_MAX g.to_ g.type path ftw).to_ := by
  unfold copy
  rw [hname]
  simp only [Bool.false_eq_true, if_false, hty, ne_eq, not_false_eq_true, if_true]
  split_ifs
  · rfl
  · rw [copy_checked_to]

theorem copy_to_unchanged (PATH_MAX : Nat) (env : Env) (g : Globals) (path : CStr)
    (statp : stat) (ftw : FTW)
    (h : (check_netatalk_dirs (copy_dir path)).isSome = true ∨ g.type = op.FILE_TO_FILE) :
    (copy PATH_MAX env g path statp ftw).g.to_ = g.to_ := by
  unfold copy
  by_cases h1 : (check_netatalk_dirs (copy_dir path)).isSome = true
  · simp [h1]
  · have h2 : g.type = op.FILE_TO_FILE := by
      rcases h with h | h
      · exact absurd h h1
      · exact h
    simp only [h1, if_false, h2, ne_eq, not_true_eq_false, Bool.false_eq_true]
    exact copy_checked_to _ _ _ _ _

/-- The cursor after an entry refused as too long: the buffer holds the
target and the separator, `p_end` and `target_end` are as before. -/
theorem copy_append_refused (PATH_MAX : Nat) (t : PATH_T) (type : op) (path : CStr)
    (ftw : FTW) (hwf : t.wf)
    (h : (copy_append PATH_MAX t type path ftw).too_long = true) :
    (copy_append PATH_MAX t type path ftw).to_.p_path =
      t.target ++
        (if spec_sep t.target (path.drop (copy_base type path ftw)) = 1 then ['/'] else []) ∧
    (copy_append PATH_MAX t type path ftw).to_.p_end = t.p_end ∧
    (copy_append PATH_MAX t type path ftw).to_.target_end = t.target_end := by
  have hs := (sep_eq_spec t (path.drop (copy_base type path ftw)) hwf).1
  have h01 := spec_sep_le_one t.target (path.drop (copy_base type path ftw))
  have hbuf : t.p_path.take t.target_end ++
      (if ((path.drop (copy_base type path ftw)).head? != some '/' &&
        t.p_path.get? (t.target_end - 1) != some '/') = true then ['/'] else []) =
      t.target ++
        (if spec_sep t.target (path.drop (copy_base type path ftw)) = 1 then ['/'] else []) := by
    by_cases hb : ((path.drop (copy_base type path ftw)).head? != some '/' &&
        t.p_path.get? (t.target_end - 1) != some '/') = true
    · have hsep : spec_sep t.target (path.drop (copy_base type path ftw)) = 1 := by
        rw [if_pos hb] at hs; omega
      rw [if_pos hb, if_pos hsep]
      rfl
    · have hsep : ¬ spec_sep t.target (path.drop (copy_base type path ftw)) = 1 := by
        rw [if_neg hb] at hs; omega
      rw [if_neg hb, if_neg hsep]
      rfl
  unfold copy_append at h ⊢
  simp only [] at h ⊢
  by_cases hlen : (if ((path.drop (copy_base type path ftw)).head? != some '/' &&
        t.p_path.get? (t.target_end - 1) != some '/') = true then t.target_end + 1
      else t.target_end) + (path.length - copy_base type path ftw) ≥ PATH_MAX
  · rw [if_pos hlen]
    exact ⟨hbuf, rfl, rfl⟩
  · rw [if_neg hlen] at h
    cases h

theorem target_ok_wf (PATH_MAX : Nat) (t : PATH_T) (h : t.target_ok PATH_MAX) : t.wf :=
  ⟨h.1, h.2.1⟩

theorem spec_strip_length_le (s : CStr) : (spec_strip s).length ≤ s.length := by
  have := strip_loop_length_le s.length s
  rw [strip_loop_eq_spec] at this
  exact this

/-- The cursor `ad_cp` sets up satisfies the invariant. -/
theorem ad_cp_target_inv (PATH_MAX : Nat) (target : CStr) (t : PATH_T) (slash : Bool)
    (hpm : 2 ≤ PATH_MAX) (h : ad_cp_target PATH_MAX target = some (t, slash)) :
    t.inv PATH_MAX ∧ t.target_ok PATH_MAX := by
  unfold ad_cp_target at h
  by_cases hl : target.length ≥ PATH_MAX
  · simp [hl] at h
  · simp only [hl, if_false, Option.some.injEq, Prod.mk.injEq] at h
    have hp : (if target = [] then ['.'] else target) ≠ [] := by
      split_ifs with h0
      · simp
      · exact h0
    have hplen : (if target = [] then ['.'] else target).length < PATH_MAX := by
      split_ifs with h0
      · simp; omega
      · omega
    generalize (if target = [] then ['.'] else target) = p at h hp hplen
    obtain ⟨ht, hs⟩ := h
    subst ht
    by_cases hsl : (p.getLast? == some '/') = true
    · simp only [hsl, if_true, STRIP_TRAILING_SLASH, strip_loop_eq_spec]
      have h1 := spec_strip_length_le p
      have h2 := List.length_pos.mpr (spec_strip_ne_nil p hp)
      refine ⟨⟨le_refl _, by simp only []; omega, rfl, spec_strip_no_trailing p⟩,
        ⟨by simp only []; omega, le_refl _, by simp only []; omega, ?_⟩⟩
      simp only [PATH_T.target, List.take_length]
      exact spec_strip_no_trailing p
    · simp only [hsl, if_false, Bool.false_eq_true]
      have h2 := List.length_pos.mpr hp
      have hns : ¬ p.getLast? = some '/' := by simpa using hsl
      refine ⟨⟨le_refl _, hplen, rfl, fun h => absurd h hns⟩,
        ⟨h2, le_refl _, hplen, ?_⟩⟩
      simp only [PATH_T.target, List.take_length]
      exact fun h => absurd h hns

/-- C15 (amended): the invariant of the destination cursor (`PATH_T.inv`)
holds after the initialisation in `ad_cp`, which succeeds exactly for the
destination arguments shorter than `PATH_MAX` and turns the empty argument
into `.`.  Every call of `copy` keeps the target part of the buffer
(`PATH_T.target_ok`); a call that skips a reserved name, or any call in
FileToFile mode, leaves the cursor unchanged; a call that sets the
destination (the entry passes the length check) establishes the invariant;
a call that refuses the entry as too long leaves `p_end` and `target_end`
unchanged while the buffer holds the target followed by the separator. -/
theorem C15_cursor_invariant (PATH_MAX : Nat) (env : Env) (g : Globals) (path : CStr)
    (statp : stat) (ftw : FTW) (hpm : 2 ≤ PATH_MAX) (hok : g.to_.target_ok PATH_MAX) :
    (∀ target t slash, ad_cp_target PATH_MAX target = some (t, slash) →
      t.inv PATH_MAX ∧ t.target_ok PATH_MAX) ∧
    (∀ target, (ad_cp_target PATH_MAX target).isSome = true ↔ target.length < PATH_MAX) ∧
    (ad_cp_target PATH_MAX []).map (fun r => r.1.p_path) = some ['.'] ∧
    (copy PATH_MAX env g path statp ftw).g.to_.target_ok PATH_MAX ∧
    (copy PATH_MAX env g path statp ftw).g.to_.target_end = g.to_.target_end ∧
    (copy PATH_MAX env g path statp ftw).g.to_.target = g.to_.target ∧
    ((check_netatalk_dirs (copy_dir path)).isSome = true ∨ g.type = op.FILE_TO_FILE →
      (copy PATH_MAX env g path statp ftw).g.to_ = g.to_) ∧
    ((check_netatalk_dirs (copy_dir path)).isSome = false → g.type ≠ op.FILE_TO_FILE →
      g.to_.target_end + spec_sep g.to_.target (path.drop (copy_base g.type path ftw)) +
        (path.drop (copy_base g.type path ftw)).length < PATH_MAX →
      (copy PATH_MAX env g path statp ftw).g.to_.inv PATH_MAX) ∧
    ((check_netatalk_dirs (copy_dir path)).isSome = false → g.type ≠ op.FILE_TO_FILE →
      g.to_.target_end + spec_sep g.to_.target (path.drop (copy_base g.type path ftw)) +
        (path.drop (copy_base g.type path ftw)).length ≥ PATH_MAX →
      (copy PATH_MAX env g path statp ftw).g.to_.p_end = g.to_.p_end ∧
      (copy PATH_MAX env g path statp ftw).g.to_.p_path =
        g.to_.target ++
          (if spec_sep g.to_.target (path.drop (copy_base g.type path ftw)) = 1
            then ['/'] else [])) := by
  have hwf := target_ok_wf PATH_MAX g.to_ hok
  have hlong := copy_append_too_long PATH_MAX g.to_ g.type path ftw hwf
  have htlen : g.to_.target.length = g.to_.target_end := by
    simp [PATH_T.target, hwf.2]
  have htne : g.to_.target ≠ [] := by
    intro h
    rw [h] at htlen
    have := hwf.1
    simp at htlen
    omega
  -- the cursor after an accepted entry
  have hacc : (copy_append PATH_MAX g.to_ g.type path ftw).too_long = false →
      (copy_append PATH_MAX g.to_ g.type path ftw).to_.inv PATH_MAX ∧
      (copy_append PATH_MAX g.to_ g.type path ftw).to_.target_ok PATH_MAX ∧
      (copy_append PATH_MAX g.to_ g.type path ftw).to_.target_end = g.to_.target_end ∧
      (copy_append PATH_MAX g.to_ g.type path ftw).to_.target = g.to_.target := by
    intro hc
    obtain ⟨h1, h2, h3⟩ := copy_append_path PATH_MAX g.to_ g.type path ftw hwf hc
    obtain ⟨x, hx⟩ := spec_join_eq_append g.to_.target
      (path.drop (copy_base g.type path ftw))
    have hpre : g.to_.target <+: (copy_append PATH_MAX g.to_ g.type path ftw).to_.p_path := by
      rw [h1, hx]
      exact spec_strip_prefix _ x htne hok.2.2.2
    have hle := hpre.length_le
    have hfit : ¬ (g.to_.target_end +
        spec_sep g.to_.target (path.drop (copy_base g.type path ftw)) +
        (path.drop (copy_base g.type path ftw)).length ≥ PATH_MAX) := by
      intro h
      rw [hlong.mpr h] at hc
      cases hc
    have hsl := spec_strip_length_le
      (spec_join g.to_.target (path.drop (copy_base g.type path ftw)))
    rw [spec_join_length _ _ hwf] at hsl
    have htk : (copy_append PATH_MAX g.to_ g.type path ftw).to_.target = g.to_.target := by
      have e1 : (copy_append PATH_MAX g.to_ g.type path ftw).to_.target =
          List.take g.to_.target.length
            (copy_append PATH_MAX g.to_ g.type path ftw).to_.p_path := by
        unfold PATH_T.target
        rw [h3, List.length_take, min_eq_left hwf.2]
      rw [e1]
      exact (List.prefix_iff_eq_take.mp hpre).symm
    have hp2 : (copy_append PATH_MAX g.to_ g.type path ftw).to_.p_end =
        (copy_append PATH_MAX g.to_ g.type path ftw).to_.p_path.length := by
      rw [h2, h1]
    refine ⟨⟨?_, ?_, hp2.symm, ?_⟩, ⟨?_, ?_, ?_, ?_⟩, h3, htk⟩
    · rw [h3, hp2]; omega
    · rw [h2]; omega
    · rw [h1]; exact spec_strip_no_trailing _
    · rw [h3]; exact hok.1
    · rw [h3]; omega
    · rw [h3]; exact hok.2.2.1
    · rw [htk]; exact hok.2.2.2
  -- the cursor after a refused entry
  have hrej : (copy_append PATH_MAX g.to_ g.type path ftw).too_long = true →
      (copy_append PATH_MAX g.to_ g.type path ftw).to_.target_ok PATH_MAX ∧
      (copy_append PATH_MAX g.to_ g.type path ftw).to_.target_end = g.to_.target_end ∧
      (copy_append PATH_MAX g.to_ g.type path ftw).to_.target = g.to_.target := by
    intro hc
    obtain ⟨h1, _, h3⟩ := copy_append_refused PATH_MAX g.to_ g.type path ftw hwf hc
    have htk : (copy_append PATH_MAX g.to_ g.type path ftw).to_.target = g.to_.target := by
      unfold PATH_T.target
      rw [h3, h1]
      unfold PATH_T.target
      rw [List.take_append_of_le_length (by simp [hwf.2])]
      simp
    refine ⟨⟨?_, ?_, ?_, ?_⟩, h3, htk⟩
    · rw [h3]; exact hok.1
    · rw [h3, h1, List.length_append, htlen]; omega
    · rw [h3]; exact hok.2.2.1
    · rw [htk]; exact hok.2.2.2
  have hgen : (copy PATH_MAX env g path statp ftw).g.to_.target_ok PATH_MAX ∧
      (copy PATH_MAX env g path statp ftw).g.to_.target_end = g.to_.target_end ∧
      (copy PATH_MAX env g path statp ftw).g.to_.target = g.to_.target := by
    by_cases hn : (check_netatalk_dirs (copy_dir path)).isSome = true
    · rw [copy_to_unchanged _ _ _ _ _ _ (Or.inl hn)]
      exact ⟨hok, rfl, rfl⟩
    · by_cases hty : g.type = op.FILE_TO_FILE
      · rw [copy_to_unchanged _ _ _ _ _ _ (Or.inr hty)]
        exact ⟨hok, rfl, rfl⟩
      · rw [copy_to_append _ _ _ _ _ _ (by simpa using hn) hty]
        cases hc : (copy_append PATH_MAX g.to_ g.type path ftw).too_long
        · exact (hacc hc).2
        · exact hrej hc
  refine ⟨fun target t slash h => ad_cp_target_inv PATH_MAX target t slash hpm h, ?_, ?_,
    hgen.1, hgen.2.1, hgen.2.2, ?_, ?_, ?_⟩
  · intro target
    unfold ad_cp_target
    by_cases hl : target.length ≥ PATH_MAX
    · simp [hl]
    · simp [hl]; omega
  · have : ¬ (([] : CStr).length ≥ PATH_MAX) := by simp; omega
    unfold ad_cp_target
    rw [if_neg this]
    rfl
  · exact copy_to_unchanged _ _ _ _ _ _
  · intro hn hty hfit
    rw [copy_to_append _ _ _ _ _ _ hn hty]
    have hc : (copy_append PATH_MAX g.to_ g.type path ftw).too_long = false := by
      cases h : (copy_append PATH_MAX g.to_ g.type path ftw).too_long
      · rfl
      · have := hlong.mp h; omega
    exact (hacc hc).1
  · intro hn hty hfit
    rw [copy_to_append _ _ _ _ _ _ hn hty]
    obtain ⟨h1, h2, _⟩ := copy_append_refused PATH_MAX g.to_ g.type path ftw hwf
      (hlong.mpr hfit)
    exact ⟨h2, h1⟩

theorem C15_cursor_invariant_witness :
    (copy 4096 sample_env (sample_globals "t".toList op.FILE_TO_DIR) "a/dir".toList
        sample_dir { base := 2, level := 0 }).g.to_.inv 4096 :=
  (C15_cursor_invariant 4096 sample_env (sample_globals "t".toList op.FILE_TO_DIR)
    "a/dir".toList sample_dir { base := 2, level := 0 }
    (by decide) (by decide)).2.2.2.2.2.2.2.1 (by decide) (by decide) (by decide)

theorem long_target_breaks_invariant (dp : CStr) (hlen : dp.length = 4095)
    (hlast : dp.getLast? = some 'd') :
    ad_cp_target 4096 dp = some ((sample_globals dp op.FILE_TO_DIR).to_, false) ∧
    (sample_globals dp op.FILE_TO_DIR).to_.inv 4096 ∧
    (copy 4096 sample_env (sample_globals dp op.FILE_TO_DIR) "b".toList
        sample_dir { base := 0, level := 0 }).g.to_.p_path = dp ++ ['/'] ∧
    (copy 4096 sample_env (sample_globals dp op.FILE_TO_DIR) "b".toList
        sample_dir { base := 0, level := 0 }).g.to_.p_end = 4095 ∧
    ¬ (copy 4096 sample_env (sample_globals dp op.FILE_TO_DIR) "b".toList
        sample_dir { base := 0, level := 0 }).g.to_.inv 4096 := by
  have hne : dp ≠ [] := by
    intro h; rw [h] at hlen; simp at hlen
  have hwf : (sample_globals dp op.FILE_TO_DIR).to_.wf := by
    simp [PATH_T.wf, sample_globals, hlen]
  have htarget : (sample_globals dp op.FILE_TO_DIR).to_.target = dp := by
    simp [PATH_T.target, sample_globals]
  have hte : (sample_globals dp op.FILE_TO_DIR).to_.target_end = 4095 := hlen
  have hpe : (sample_globals dp op.FILE_TO_DIR).to_.p_end = 4095 := hlen
  have hbase : copy_base op.FILE_TO_DIR "b".toList { base := 0, level := 0 } = 0 := by
    decide
  have hlong : (copy_append 4096 (sample_globals dp op.FILE_TO_DIR).to_
      op.FILE_TO_DIR "b".toList { base := 0, level := 0 }).too_long = true := by
    rw [copy_append_too_long _ _ _ _ _ hwf, hbase, hte]
    have : ("b".toList.drop 0).length = 1 := by decide
    rw [this]
    omega
  have hsep : spec_sep dp ("b".toList.drop 0) = 1 := by
    unfold spec_sep
    rw [hlast]
    decide
  obtain ⟨h1, h2, _⟩ := copy_append_refused 4096 (sample_globals dp op.FILE_TO_DIR).to_
    op.FILE_TO_DIR "b".toList { base := 0, level := 0 } hwf hlong
  rw [hbase, htarget, hsep] at h1
  have hcopy := copy_to_append 4096 sample_env (sample_globals dp op.FILE_TO_DIR)
    "b".toList sample_dir { base := 0, level := 0 } (by decide)
    (by simp [sample_globals])
  have hpath : (copy 4096 sample_env (sample_globals dp op.FILE_TO_DIR) "b".toList
      sample_dir { base := 0, level := 0 }).g.to_.p_path = dp ++ ['/'] := by
    rw [hcopy]
    simpa using h1
  have hend : (copy 4096 sample_env (sample_globals dp op.FILE_TO_DIR) "b".toList
      sample_dir { base := 0, level := 0 }).g.to_.p_end = 4095 := by
    rw [hcopy]
    exact h2.trans hpe
  refine ⟨?_, ?_, hpath, hend, ?_⟩
  · unfold ad_cp_target
    have h3 : ¬ dp.length ≥ 4096 := by omega
    have h4 : (dp.getLast? == some '/') = false := by rw [hlast]; decide
    simp only [h3, if_false, hne, h4, Bool.false_eq_true]
    rfl
  · refine ⟨le_refl _, by rw [hpe]; omega, rfl, ?_⟩
    intro h
    have : (sample_globals dp op.FILE_TO_DIR).to_.p_path = dp := rfl
    rw [this, hlast] at h
    exact absurd h (by decide)
  · intro hinv
    have := hinv.2.2.1
    rw [hpath, hend] at this
    simp [hlen] at this

/-- C15, as stated, fails after an entry refused as too long: the command
`cp -R b d/d/.../d` with an existing target directory of 4095 characters and
`PATH_MAX` 4096.  The cursor `ad_cp` sets up satisfies the invariant; after
the call of `copy` the buffer holds the target and a slash (4096 characters)
while `p_end` is still 4095. -/
theorem C15_refused_entry_breaks_invariant :
    ad_cp_target 4096 (deep_path 2047) =
      some ((sample_globals (deep_path 2047) op.FILE_TO_DIR).to_, false) ∧
    (sample_globals (deep_path 2047) op.FILE_TO_DIR).to_.inv 4096 ∧
    (copy 4096 sample_env (sample_globals (deep_path 2047) op.FILE_TO_DIR) "b".toList
        sample_dir { base := 0, level := 0 }).g.to_.p_path = deep_path 2047 ++ ['/'] ∧
    (copy 4096 sample_env (sample_globals (deep_path 2047) op.FILE_TO_DIR) "b".toList
        sample_dir { base := 0, level := 0 }).g.to_.p_end = 4095 ∧
    ¬ (copy 4096 sample_env (sample_globals (deep_path 2047) op.FILE_TO_DIR) "b".toList
        sample_dir { base := 0, level := 0 }).g.to_.inv 4096 :=
  long_target_breaks_invariant (deep_path 2047) (deep_path_length 2047)
    (deep_path_getLast? 2047)

/-! ### The length check and the reserved names -/

theorem long_target_type (dp : CStr) :
    (sample_globals dp op.FILE_TO_DIR).type ≠ op.FILE_TO_FILE := by
  simp [sample_globals]

theorem long_target_wf (dp : CStr) (hlen : dp.length = 4095) :
    (sample_globals dp op.FILE_TO_DIR).to_.wf := by
  simp [PATH_T.wf, sample_globals, hlen]

theorem long_target_sum (dp path : CStr) (ftw : FTW) (hlen : dp.length = 4095)
    (h : 1 ≤ (path.drop (copy_base op.FILE_TO_DIR path ftw)).length) :
    (sample_globals dp op.FILE_TO_DIR).to_.target_end +
        spec_sep (sample_globals dp op.FILE_TO_DIR).to_.target
          (path.drop (copy_base (sample_globals dp op.FILE_TO_DIR).type path ftw)) +
        (path.drop (copy_base (sample_globals dp op.FILE_TO_DIR).type path ftw)).length
      ≥ 4096 := by
  have h1 : (sample_globals dp op.FILE_TO_DIR).to_.target_end = 4095 := hlen
  have h2 : (sample_globals dp op.FILE_TO_DIR).type = op.FILE_TO_DIR := rfl
  rw [h1, h2]
  omega

theorem copy_reserved (PATH_MAX : Nat) (env : Env) (g : Globals) (path : CStr)
    (statp : stat) (ftw : FTW) (hname : check_netatalk_dirs (copy_dir path) ≠ none) :
    copy PATH_MAX env g path statp ftw =
      { out := .ret FTW_SKIP_SUBTREE, g := g, trace := [] } := by
  have h : (check_netatalk_dirs (copy_dir path)).isSome = true := by
    cases hc : check_netatalk_dirs (copy_dir path) with
    | none => exact absurd hc hname
    | some d => rfl
  unfold copy
  rw [if_pos h]

/-- C7 (amended): in a mode other than FileToFile, `copy` skips an entry with
a reserved name before the length check, whatever the lengths: the answer is
the skip action, no flag is set and no call is made.  For every other entry,
with s the suffix to append: `copy` refuses the entry (it makes no call for
it, not even the `stat` of the destination) exactly when the length of the
target including an inserted separator plus the length of s reaches
`PATH_MAX`; a refused entry sets `badcp` and `rval` and the answer is 0
(continue); an accepted entry gets a destination path shorter than
`PATH_MAX`, which is the path `copy` examines first. -/
theorem C7_name_too_long (PATH_MAX : Nat) (env : Env) (g : Globals) (path : CStr)
    (statp : stat) (ftw : FTW)
    (hty : g.type ≠ op.FILE_TO_FILE)
    (hwf : g.to_.wf) :
    (check_netatalk_dirs (copy_dir path) ≠ none →
      (copy PATH_MAX env g path statp ftw).out = .ret FTW_SKIP_SUBTREE ∧
      (copy PATH_MAX env g path statp ftw).g = g ∧
      (copy PATH_MAX env g path statp ftw).trace = []) ∧
    (check_netatalk_dirs (copy_dir path) = none →
      ((copy PATH_MAX env g path statp ftw).trace = [] ↔
        g.to_.target_end +
          spec_sep g.to_.target (path.drop (copy_base g.type path ftw)) +
          (path.drop (copy_base g.type path ftw)).length ≥ PATH_MAX) ∧
      (g.to_.target_end +
          spec_sep g.to_.target (path.drop (copy_base g.type path ftw)) +
          (path.drop (copy_base g.type path ftw)).length ≥ PATH_MAX →
        (copy PATH_MAX env g path statp ftw).out = .ret 0 ∧
        (copy PATH_MAX env g path statp ftw).g.badcp = 1 ∧
        (copy PATH_MAX env g path statp ftw).g.rval = 1) ∧
      (g.to_.target_end +
          spec_sep g.to_.target (path.drop (copy_base g.type path ftw)) +
          (path.drop (copy_base g.type path ftw)).length < PATH_MAX →
        (copy PATH_MAX env g path statp ftw).g.to_.p_path.length < PATH_MAX ∧
        (copy PATH_MAX env g path statp ftw).trace.head? =
          some (Ev.stat (copy PATH_MAX env g path statp ftw).g.to_.p_path))) := by
  refine ⟨fun hname => ?_, fun hname => length_check PATH_MAX env g path statp ftw hty hname hwf⟩
  rw [copy_reserved PATH_MAX env g path statp ftw hname]
  exact ⟨rfl, rfl, rfl⟩

theorem C7_name_too_long_witness :
    (copy 4096 sample_env (sample_globals "t".toList op.FILE_TO_DIR) "a/dir".toList
        sample_dir { base := 2, level := 0 }).g.to_.p_path.length < 4096 ∧
    ((copy 4096 sample_env (sample_globals (deep_path 2047) op.FILE_TO_DIR) "b".toList
        sample_dir { base := 0, level := 0 }).out = .ret 0 ∧
      (copy 4096 sample_env (sample_globals (deep_path 2047) op.FILE_TO_DIR) "b".toList
        sample_dir { base := 0, level := 0 }).g.badcp = 1 ∧
      (copy 4096 sample_env (sample_globals (deep_path 2047) op.FILE_TO_DIR) "b".toList
        sample_dir { base := 0, level := 0 }).g.rval = 1) :=
  ⟨(((C7_name_too_long 4096 sample_env (sample_globals "t".toList op.FILE_TO_DIR)
      "a/dir".toList sample_dir { base := 2, level := 0 }
      (by decide) (by decide)).2 (by decide)).2.2 (by decide)).1,
   ((C7_name_too_long 4096 sample_env (sample_globals (deep_path 2047) op.FILE_TO_DIR)
      "b".toList sample_dir { base := 0, level := 0 }
      (long_target_type (deep_path 2047))
      (long_target_wf (deep_path 2047) (deep_path_length 2047))).2 (by decide)).2.1
     (long_target_sum (deep_path 2047) "b".toList { base := 0, level := 0 }
       (deep_path_length 2047) (by decide))⟩

/-- C7, as stated, fails for an entry with a reserved name: the command
`cp -R b d/d/.../d` with an existing target directory of 4095 characters,
`PATH_MAX` 4096 and the entry `b/.AppleDouble` at depth 1.  The length of
the target plus the separator plus the length of the suffix reaches
`PATH_MAX`, yet `copy` answers with the skip action (2), not 0, and sets no
failure flag. -/
theorem C7_reserved_name_is_skipped :
    (sample_globals (deep_path 2047) op.FILE_TO_DIR).type ≠ op.FILE_TO_FILE ∧
    (sample_globals (deep_path 2047) op.FILE_TO_DIR).to_.target_end +
        spec_sep (sample_globals (deep_path 2047) op.FILE_TO_DIR).to_.target
          ("b/.AppleDouble".toList.drop
            (copy_base (sample_globals (deep_path 2047) op.FILE_TO_DIR).type
              "b/.AppleDouble".toList { base := 2, level := 1 })) +
        ("b/.AppleDouble".toList.drop
            (copy_base (sample_globals (deep_path 2047) op.FILE_TO_DIR).type
              "b/.AppleDouble".toList { base := 2, level := 1 })).length
      ≥ 4096 ∧
    (copy 4096 sample_env (sample_globals (deep_path 2047) op.FILE_TO_DIR)
        "b/.AppleDouble".toList sample_dir { base := 2, level := 1 }).out = .ret 2 ∧
    (copy 4096 sample_env (sample_globals (deep_path 2047) op.FILE_TO_DIR)
        "b/.AppleDouble".toList sample_dir { base := 2, level := 1 }).g.badcp = 0 ∧
    (copy 4096 sample_env (sample_globals (deep_path 2047) op.FILE_TO_DIR)
        "b/.AppleDouble".toList sample_dir { base := 2, level := 1 }).g.rval = 0 :=
  ⟨long_target_type (deep_path 2047),
   long_target_sum (deep_path 2047) "b/.AppleDouble".toList { base := 2, level := 1 }
     (deep_path_length 2047) (by decide),
   by rw [copy_reserved 4096 sample_env _ "b/.AppleDouble".toList sample_dir
        { base := 2, level := 1 } (by decide)]; rfl,
   by rw [copy_reserved 4096 sample_env _ "b/.AppleDouble".toList sample_dir
        { base := 2, level := 1 } (by decide)]; rfl,
   by rw [copy_reserved 4096 sample_env _ "b/.AppleDouble".toList sample_dir
        { base := 2, level := 1 } (by decide)]; rfl⟩

/-! ### The transfer strategy of `ftw_copy_file` -/

theorem ftw_copy_file_reached (env : Env) (g : Globals) (spath : CStr) (sp : stat)
    (dne : Bool) (hl : g.lflag = false) (hr : transfer_reached env g dne = true) :
    (ftw_copy_file env g spath sp dne).trace =
      calls_before_transfer g spath sp dne ++
        (ftw_copy_file_transfer env g spath sp env.open_dst).trace ∧
    (ftw_copy_file env g spath sp dne).out =
      (ftw_copy_file_transfer env g spath sp env.open_dst).out := by
  unfold transfer_reached bne at hr
  unfold ftw_copy_file calls_before_transfer
  generalize ftw_copy_file_transfer env g spath sp env.open_dst = r at *
  generalize (env.answer.head? == some 'y' || env.answer.head? == some 'Y') = yes at *
  generalize (env.open_src == -1) = osrc at *
  generalize (env.open_dst == -1) = odst at *
  simp only [hl]
  cases dne <;> cases hn : g.nflag <;> cases hi : g.iflag <;> cases hf : g.fflag <;>
    cases yes <;> cases osrc <;> cases odst <;> simp_all

theorem ftw_copy_file_not_reached (env : Env) (g : Globals) (spath : CStr) (sp : stat)
    (dne : Bool) (hl : g.lflag = false) (hr : transfer_reached env g dne = false) :
    ∀ e ∈ (ftw_copy_file env g spath sp dne).trace,
      e.is_mmap = false ∧ e.is_read = false ∧ e.is_write = false := by
  unfold transfer_reached bne at hr
  unfold ftw_copy_file
  generalize ftw_copy_file_transfer env g spath sp env.open_dst = r at *
  generalize (env.answer.head? == some 'y' || env.answer.head? == some 'Y') = yes at *
  generalize (env.open_src == -1) = osrc at *
  generalize (env.open_dst == -1) = odst at *
  simp only [hl]
  cases dne <;> cases hn : g.nflag <;> cases hi : g.iflag <;> cases hf : g.fflag <;>
    cases yes <;> cases osrc <;> cases odst <;>
      simp_all [Ev.is_mmap, Ev.is_read, Ev.is_write]

theorem calls_before_any (g : Globals) (spath : CStr) (sp : stat) (dne : Bool) :
    (calls_before_transfer g spath sp dne).any Ev.is_mmap = false ∧
    (calls_before_transfer g spath sp dne).any Ev.is_read = false := by
  unfold calls_before_transfer
  cases dne <;> cases g.iflag <;> cases g.fflag <;>
    simp [Ev.is_mmap, Ev.is_read]

/-- C14 (amended): when not hard-linking, `ftw_copy_file` attempts the
memory-mapped transfer iff it reaches the transfer (the source and the
destination were opened and the entry was not left alone under `-n` or
`-i`) and the source is a regular file with 0 < size <= 8388608.  It issues
`read` calls iff it reaches the transfer, the mapped transfer was not
selected or the mapping failed, and the buffer is there or can be
allocated.  With the mapping in place the calls are those before the
transfer, the mapping, the writes over the mapped region, the unmapping and
the calls after the transfer, and no `read`.  Otherwise they are those
before the transfer, the failed mapping if one was attempted, the buffered
loop and the calls after the transfer; when the buffer cannot be allocated
the process ends. -/
theorem C14_strategy_by_size (env : Env) (g : Globals) (spath : CStr) (sp : stat)
    (dne : Bool) (hl : g.lflag = false) :
    ((∃ e ∈ (ftw_copy_file env g spath sp dne).trace, e.is_mmap = true) ↔
      (transfer_reached env g dne = true ∧
        S_ISREG sp.st_mode = true ∧ 0 < sp.st_size ∧ sp.st_size ≤ 8388608)) ∧
    (transfer_reached env g dne = true →
      S_ISREG sp.st_mode = true ∧ 0 < sp.st_size ∧ sp.st_size ≤ 8388608 →
      Ev.mmap sp.st_size.toNat ∈ (ftw_copy_file env g spath sp dne).trace) ∧
    ((∃ e ∈ (ftw_copy_file env g spath sp dne).trace, e.is_read = true) ↔
      (transfer_reached env g dne = true ∧
        ¬ ((S_ISREG sp.st_mode = true ∧ 0 < sp.st_size ∧ sp.st_size ≤ 8388608) ∧
          env.mmap_ok = true) ∧
        (g.bufsize ≠ none ∨ env.malloc_ok = true))) ∧
    (transfer_reached env g dne = true →
      (S_ISREG sp.st_mode = true ∧ 0 < sp.st_size ∧ sp.st_size ≤ 8388608) ∧
        env.mmap_ok = true →
      (ftw_copy_file env g spath sp dne).trace =
        calls_before_transfer g spath sp dne ++
          [Ev.mmap sp.st_size.toNat] ++
          (write_loop env.write (sp.st_size.toNat + 1) 0 0 sp.st_size.toNat).2.2.2 ++
          [Ev.munmap sp.st_size.toNat] ++
          calls_after_transfer env g sp) ∧
    (transfer_reached env g dne = true →
      ¬ ((S_ISREG sp.st_mode = true ∧ 0 < sp.st_size ∧ sp.st_size ≤ 8388608) ∧
          env.mmap_ok = true) →
      g.bufsize ≠ none ∨ env.malloc_ok = true →
      (ftw_copy_file env g spath sp dne).trace =
        calls_before_transfer g spath sp dne ++
          (if S_ISREG sp.st_mode = true ∧ 0 < sp.st_size ∧ sp.st_size ≤ 8388608
            then [Ev.mmap sp.st_size.toNat] else []) ++
          (read_loop env.write env.reads 0 0).2 ++
          calls_after_transfer env g sp) ∧
    (transfer_reached env g dne = true →
      ¬ ((S_ISREG sp.st_mode = true ∧ 0 < sp.st_size ∧ sp.st_size ≤ 8388608) ∧
          env.mmap_ok = true) →
      g.bufsize = none → env.malloc_ok = false →
      (ftw_copy_file env g spath sp dne).out = .exit 1) := by
  by_cases hr : transfer_reached env g dne = true
  · obtain ⟨htr, hout⟩ := ftw_copy_file_reached env g spath sp dne hl hr
    have hS := transfer_strategy_by_size env g spath sp env.open_dst hl
    have hpre := calls_before_any g spath sp dne
    have hex : ∀ p : Ev → Bool, (calls_before_transfer g spath sp dne).any p = false →
        ((∃ e ∈ (ftw_copy_file env g spath sp dne).trace, p e = true) ↔
          ∃ e ∈ (ftw_copy_file_transfer env g spath sp env.open_dst).trace, p e = true) := by
      intro p hp
      rw [htr]
      simp only [← List.any_eq_true, List.any_append, hp, Bool.false_or]
    refine ⟨?_, ?_, ?_, ?_, ?_, ?_⟩
    · rw [hex _ hpre.1, hS.1]
      exact ⟨fun h => ⟨hr, h⟩, fun h => h.2⟩
    · intro _ hs
      rw [htr]
      exact List.mem_append_right _ (hS.2.1 hs)
    · rw [hex _ hpre.2, hS.2.2.1]
      exact ⟨fun h => ⟨hr, h⟩, fun h => h.2⟩
    · intro _ hm
      rw [htr, transfer_mapped env g spath sp env.open_dst hl ((small_iff sp).mpr hm.1) hm.2]
      simp [calls_after_transfer]
    · intro _ hm hb
      have hm2 : ¬ ((S_ISREG sp.st_mode && decide (sp.st_size > 0) &&
          decide (sp.st_size ≤ 8 * 1024 * 1024)) = true ∧ env.mmap_ok = true) :=
        fun h => hm ⟨(small_iff sp).mp h.1, h.2⟩
      rw [htr, transfer_buffered env g spath sp env.open_dst hl hm2 hb]
      by_cases hs : S_ISREG sp.st_mode = true ∧ 0 < sp.st_size ∧ sp.st_size ≤ 8388608
      · rw [if_pos hs, if_pos ((small_iff sp).mpr hs)]
        simp [calls_after_transfer]
      · rw [if_neg hs, if_neg (fun h => hs ((small_iff sp).mp h))]
        simp [calls_after_transfer]
    · intro _ hm hbs hmal
      rw [hout]
      exact hS.2.2.2.2 hm hbs hmal
  · have hr2 : transfer_reached env g dne = false := by simpa using hr
    have hno := ftw_copy_file_not_reached env g spath sp dne hl hr2
    refine ⟨?_, ?_, ?_, ?_, ?_, ?_⟩
    · refine iff_of_false ?_ (fun h => hr h.1)
      rintro ⟨e, he, h⟩
      rw [(hno e he).1] at h
      cases h
    · intro h; exact absurd h hr
    · refine iff_of_false ?_ (fun h => hr h.1)
      rintro ⟨e, he, h⟩
      rw [(hno e he).2.1] at h
      cases h
    · intro h; exact absurd h hr
    · intro h; exact absurd h hr
    · intro h; exact absurd h hr

theorem C14_strategy_by_size_witness :
    Ev.mmap 1 ∈ (ftw_copy_file sample_env
        (sample_globals "t/f".toList op.FILE_TO_DIR) "f".toList (sample_sized 1) true).trace ∧
    Ev.mmap 8388607 ∈ (ftw_copy_file sample_env
        (sample_globals "t/f".toList op.FILE_TO_DIR) "f".toList (sample_sized 8388607)
        true).trace ∧
    Ev.mmap 8388608 ∈ (ftw_copy_file sample_env
        (sample_globals "t/f".toList op.FILE_TO_DIR) "f".toList (sample_sized 8388608)
        true).trace ∧
    (ftw_copy_file sample_env
        (sample_globals "t/f".toList op.FILE_TO_DIR) "f".toList (sample_sized 0) true).trace =
      [Ev.open_rdonly "f".toList, Ev.open_trunc "t/f".toList true 0o100644, Ev.read 0,
        Ev.close_to, Ev.close_from] ∧
    (ftw_copy_file sample_env
        (sample_globals "t/f".toList op.FILE_TO_DIR) "f".toList (sample_sized 8388609)
        true).trace =
      [Ev.open_rdonly "f".toList, Ev.open_trunc "t/f".toList true 0o100644, Ev.read 0,
        Ev.close_to, Ev.close_from] :=
  ⟨(C14_strategy_by_size sample_env (sample_globals "t/f".toList op.FILE_TO_DIR)
      "f".toList (sample_sized 1) true rfl).2.1 (by decide) (by decide),
   (C14_strategy_by_size sample_env (sample_globals "t/f".toList op.FILE_TO_DIR)
      "f".toList (sample_sized 8388607) true rfl).2.1 (by decide) (by decide),
   (C14_strategy_by_size sample_env (sample_globals "t/f".toList op.FILE_TO_DIR)
      "f".toList (sample_sized 8388608) true rfl).2.1 (by decide) (by decide),
   ((C14_strategy_by_size sample_env (sample_globals "t/f".toList op.FILE_TO_DIR)
      "f".toList (sample_sized 0) true rfl).2.2.2.2.1 (by decide) (by decide)
      (Or.inr rfl)).trans (by decide),
   ((C14_strategy_by_size sample_env (sample_globals "t/f".toList op.FILE_TO_DIR)
      "f".toList (sample_sized 8388609) true rfl).2.2.2.2.1 (by decide) (by decide)
      (Or.inr rfl)).trans (by decide)⟩

/-- C14, as stated, fails for an entry that does not reach the transfer: the
command `cp -n f t` where `t/f` exists and `f` is a regular file of one
byte.  Hard-linking is off and the size lies in (0, 8388608], yet
`ftw_copy_file` opens and closes the source and returns 0: it attempts no
mapping (and no buffered loop either). -/
theorem C14_no_clobber_attempts_no_mapping :
    ({ sample_globals "t/f".toList op.FILE_TO_DIR with nflag := true }).lflag = false ∧
    S_ISREG (sample_sized 1).st_mode = true ∧
    0 < (sample_sized 1).st_size ∧ (sample_sized 1).st_size ≤ 8388608 ∧
    (ftw_copy_file sample_env
        { sample_globals "t/f".toList op.FILE_TO_DIR with nflag := true }
        "f".toList (sample_sized 1) false).trace =
      [Ev.open_rdonly "f".toList, Ev.close_from] ∧
    (ftw_copy_file sample_env
        { sample_globals "t/f".toList op.FILE_TO_DIR with nflag := true }
        "f".toList (sample_sized 1) false).out = .ret 0 := by
  decide

end AdCp
